import Mathlib

/-!
Verification of the spreadsheet-dashboard core pipeline
(`src/Dashboard(1).py`): fiscal-period ordering, column-label
canonicalization (`rename_columns`), dimension extraction
(`extract_unique_values`), month/year column filtering
(`column_filter`), Budget-vs-Actual period alignment, table location
and header resolution.  Python string and regular-expression
primitives are embedded as executable functions over `List Char`;
the model stays at the ASCII fragment actually exercised by the
labels in question (Python `\w`, `\d`, `\s` are Unicode-aware, the
labels here are ASCII plus the en-dash, which the code rewrites to
a hyphen before matching).
-/

namespace Dashboard

/-- Characters matched by the regular-expression class `\w`
(ASCII fragment). -/
def isWordChar (c : Char) : Bool :=
  decide (('A' ≤ c ∧ c ≤ 'Z') ∨ ('a' ≤ c ∧ c ≤ 'z') ∨ ('0' ≤ c ∧ c ≤ '9') ∨ c = '_')

/-- Characters matched by `\d` (ASCII fragment). -/
def isDigitChar (c : Char) : Bool :=
  decide ('0' ≤ c ∧ c ≤ '9')

/-- Characters matched by `\s` (ASCII fragment, as in Python
`str.strip` and the `\s` class). -/
def isSpaceChar (c : Char) : Bool :=
  decide (c = ' ' ∨ c = '\t' ∨ c = '\n' ∨ c = '\r')

/-- ASCII lower-casing, as applied by Python `str.lower` to the
label alphabet in play. -/
def lowerChar (c : Char) : Char :=
  if 'A' ≤ c ∧ c ≤ 'Z' then Char.ofNat (c.toNat + 32) else c

/-- ASCII upper-casing. -/
def upperChar (c : Char) : Char :=
  if 'a' ≤ c ∧ c ≤ 'z' then Char.ofNat (c.toNat - 32) else c

def lowerStr (l : List Char) : List Char := l.map lowerChar

/-- Python `str.capitalize`: first character upper-cased, the rest
lower-cased. -/
def capitalizeStr (l : List Char) : List Char :=
  match l with
  | [] => []
  | c :: t => upperChar c :: t.map lowerChar

/-- Case-insensitive character comparison. -/
def eqCi (a b : Char) : Bool := lowerChar a = lowerChar b

/-- Drop trailing whitespace. -/
def stripEnd : List Char → List Char
  | [] => []
  | c :: t =>
    let r := stripEnd t
    if r.isEmpty then (if isSpaceChar c then [] else [c]) else c :: r

/-- Python `str.strip` (whitespace on both ends). -/
def stripStr (l : List Char) : List Char :=
  stripEnd (l.dropWhile isSpaceChar)

/-- Python `str.replace(",", "")`: every comma removed. -/
def dropCommas (l : List Char) : List Char :=
  l.filter (fun c => !(c = ','))

/-- Python `str.replace("–", "-")`: every en-dash rewritten to a
hyphen. -/
def dashify (l : List Char) : List Char :=
  l.map (fun c => if c = '–' then '-' else c)

/-- The cleaning applied to each column label before pattern
matching: `col.strip().replace(",", "").replace("–", "-")`. -/
def cleanLabel (l : List Char) : List Char :=
  dashify (dropCommas (stripStr l))

/-- `sub` occurs as a prefix of `l` (exact characters). -/
def isPrefixOfChars (sub l : List Char) : Bool :=
  match sub, l with
  | [], _ => true
  | _ :: _, [] => false
  | a :: s, b :: t => a = b && isPrefixOfChars s t

/-- Python `sub in s` (substring containment, exact characters). -/
def containsSub (l sub : List Char) : Bool :=
  match l with
  | [] => isPrefixOfChars sub []
  | _ :: t => isPrefixOfChars sub l || containsSub t sub

/-- Case-insensitive literal match at the head of the input:
returns the remaining input on success. -/
def matchLitCi (tok l : List Char) : Option (List Char) :=
  match tok, l with
  | [], rest => some rest
  | _ :: _, [] => none
  | a :: s, b :: t => if eqCi a b then matchLitCi s t else none

/-- The separator class `[-–\s]` used inside the YTD patterns. -/
def ytdSepChar (c : Char) : Bool :=
  c = '-' || c = '–' || isSpaceChar c

/-- Anchored match of the core YTD shape
`YTD[-–\s]*\d{2}[-–\s]*\d{2}\s*\([^)]*\)` at the head of the input,
returning the input remaining after the match.  All quantifiers are
greedy and their character classes are disjoint from what follows,
so the match is deterministic. -/
def ytdCoreRest (l : List Char) : Option (List Char) :=
  match matchLitCi ['Y', 'T', 'D'] l with
  | none => none
  | some r1 =>
    match r1.dropWhile ytdSepChar with
    | d1 :: d2 :: r3 =>
      if isDigitChar d1 && isDigitChar d2 then
        match r3.dropWhile ytdSepChar with
        | e1 :: e2 :: r5 =>
          if isDigitChar e1 && isDigitChar e2 then
            match r5.dropWhile isSpaceChar with
            | c6 :: r7 =>
              if c6 = '(' then
                match r7.dropWhile (fun c => !(c = ')')) with
                | c8 :: r9 => if c8 = ')' then some r9 else none
                | [] => none
              else none
            | [] => none
          else none
        | _ => none
      else none
    | _ => none

/-- Anchored attempt for `(YTD…\([^)]*\))\s*Act` (case-insensitive):
returns the capture group. -/
def ytdActAt (l : List Char) : Option (List Char) :=
  match ytdCoreRest l with
  | some rest =>
    match matchLitCi ['A', 'c', 't'] (rest.dropWhile isSpaceChar) with
    | some _ => some (l.take (l.length - rest.length))
    | none => none
  | none => none

/-- Anchored attempt for `(Gr-YTD…\([^)]*\))` (case-insensitive). -/
def grYtdAt (l : List Char) : Option (List Char) :=
  match matchLitCi ['G', 'r', '-'] l with
  | some r =>
    match ytdCoreRest r with
    | some rest => some (l.take (l.length - rest.length))
    | none => none
  | none => none

/-- Anchored attempt for `(Ach-YTD…\([^)]*\))` (case-insensitive). -/
def achYtdAt (l : List Char) : Option (List Char) :=
  match matchLitCi ['A', 'c', 'h', '-'] l with
  | some r =>
    match ytdCoreRest r with
    | some rest => some (l.take (l.length - rest.length))
    | none => none
  | none => none

/-- Anchored attempt for `(YTD…\([^)]*\))\s*Ach` (case-insensitive). -/
def ytdAchAltAt (l : List Char) : Option (List Char) :=
  match ytdCoreRest l with
  | some rest =>
    match matchLitCi ['A', 'c', 'h'] (rest.dropWhile isSpaceChar) with
    | some _ => some (l.take (l.length - rest.length))
    | none => none
  | none => none

/-- `re.search`: try the anchored matcher at every start position,
left to right. -/
def searchPos (f : List Char → Option (List Char)) : List Char → Option (List Char)
  | [] => f []
  | c :: t =>
    match f (c :: t) with
    | some cap => some cap
    | none => searchPos f t

/-- The separator class `[\s-]` of the monthly pattern
`(\b\w{3,})[\s-]*(\d{2})` (no en-dash: the label was already
dash-normalized). -/
def monthlySepChar (c : Char) : Bool :=
  isSpaceChar c || c = '-'

/-- Two digits at the head of the input. -/
def digits2 (r : List Char) : Option (List Char) :=
  match r with
  | a :: b :: _ => if isDigitChar a && isDigitChar b then some [a, b] else none
  | _ => none

/-- Backtracking over the separator run of `[\s-]*(\d{2})`: try the
longest separator prefix first (greedy), shrinking on failure. -/
def sepTryDesc (r : List Char) : Nat → Option (List Char)
  | 0 => digits2 r
  | j + 1 =>
    match digits2 (r.drop (j + 1)) with
    | some d => some d
    | none => sepTryDesc r j

/-- Backtracking over the word run of `(\w{3,})`: try the longest
prefix first, down to three characters.  The argument is the length
currently tried. -/
def wordTryDesc (l : List Char) : Nat → Option (List Char × List Char)
  | 0 => none
  | k + 1 =>
    if k + 1 < 3 then none
    else
      let r := l.drop (k + 1)
      match sepTryDesc r (r.takeWhile monthlySepChar).length with
      | some d => some (l.take (k + 1), d)
      | none => wordTryDesc l k

/-- Anchored attempt of `(\w{3,})[\s-]*(\d{2})` at a position whose
preceding character is a non-word character (the `\b`). -/
def monthlyAt (l : List Char) : Option (List Char × List Char) :=
  wordTryDesc l (l.takeWhile isWordChar).length

/-- `re.search(r'(\b\w{3,})[\s-]*(\d{2})', …)`: scan start positions,
attempting only where a word boundary precedes a word character. -/
def monthlyScan : Bool → List Char → Option (List Char × List Char)
  | _, [] => none
  | prevW, c :: t =>
    if !prevW && isWordChar c then
      match monthlyAt (c :: t) with
      | some g => some g
      | none => monthlyScan (isWordChar c) t
    else monthlyScan (isWordChar c) t

def monthlySearch (l : List Char) : Option (List Char × List Char) :=
  monthlyScan false l

/-- Extend the first piece of a split result. -/
def consPiece (c : Char) : List (List Char) → List (List Char)
  | p :: ps => (c :: p) :: ps
  | [] => [[c]]

/-- Python `"….split('Gr-')"` (exact case, non-overlapping,
left-to-right). -/
def splitGrDash : List Char → List (List Char)
  | [] => [[]]
  | c :: c2 :: c3 :: t2 =>
    if c = 'G' && c2 = 'r' && c3 = '-' then [] :: splitGrDash t2
    else consPiece c (splitGrDash (c2 :: c3 :: t2))
  | c :: t => consPiece c (splitGrDash t)

/-- The carried-over month/year accumulator of the rename pass:
`(prev_month, prev_year)`, both non-empty strings whenever set. -/
abbrev RenameSt := Option (List Char × List Char)

/-- One iteration of the `rename_columns` loop body
(`src/Dashboard(1).py`, lines 1038–1075) on a single column label.
`Except.error` models the uncaught `IndexError` raised by
`gr_ytd.split('Gr-')[1]` when the case-insensitively matched label
contains no exact-case `Gr-`. -/
def renameOne (st : RenameSt) (col : String) : Except Unit (String × RenameSt) :=
  let c := cleanLabel col.data
  match searchPos ytdActAt c with
  | some cap => .ok (String.mk ('A' :: 'c' :: 't' :: '-' :: dashify cap), st)
  | none =>
  match searchPos grYtdAt c with
  | some cap =>
    match (splitGrDash (dashify cap)).get? 1 with
    | some p => .ok (String.mk ('G' :: 'r' :: '-' :: p), st)
    | none => .error ()
  | none =>
  match searchPos achYtdAt c with
  | some cap => .ok (String.mk (dashify cap), st)
  | none =>
  match searchPos ytdAchAltAt c with
  | some cap => .ok (String.mk ('A' :: 'c' :: 'h' :: '-' :: dashify cap), st)
  | none =>
    let st1 : RenameSt :=
      match monthlySearch c with
      | some (w, d) => some (capitalizeStr w, d)
      | none => st
    match st1 with
    | some (m, y) =>
      if isPrefixOfChars ['g', 'r'] (lowerStr c) then
        .ok (String.mk (('G' :: 'r' :: ' ' :: '-' :: ' ' :: m) ++ '-' :: y), st1)
      else if isPrefixOfChars ['a', 'c', 'h'] (lowerStr c) then
        .ok (String.mk (('A' :: 'c' :: 'h' :: ' ' :: '-' :: ' ' :: m) ++ '-' :: y), st1)
      else .ok (col, st1)
    | none => .ok (col, st1)

/-- The full left-to-right rename pass with its carry-over
accumulator. -/
def renameFold (st : RenameSt) : List String → Except Unit (List String × RenameSt)
  | [] => .ok ([], st)
  | c :: t =>
    match renameOne st c with
    | .error e => .error e
    | .ok (o, st2) =>
      match renameFold st2 t with
      | .error e => .error e
      | .ok (os, st3) => .ok (o :: os, st3)

/-- `rename_columns` (`src/Dashboard(1).py`, lines 1038–1075):
a fresh accumulator per pass. -/
def rename_columns (cols : List String) : Except Unit (List String) :=
  (renameFold none cols).map Prod.fst

/-! ### The canonical label vocabulary

Concrete builders for the column-label shapes the pipeline is
designed around: monthly metric labels `Metric-Mon-YY`, bare `Gr` /
`Ach` carry-over labels, and the four YTD shapes with a fiscal year
pair `YY-(YY+1)` and a month range `(Apr to Mon)`. -/

/-- Fiscal month order, April first (also the list
`fiscal_month_order` at line 1295 of the source). -/
def fiscalMonthNames : List String :=
  ["Apr", "May", "Jun", "Jul", "Aug", "Sep", "Oct", "Nov", "Dec", "Jan", "Feb", "Mar"]

def monthName (m : Fin 12) : String := fiscalMonthNames.getD m.val ""

/-- The decimal digit character for `d`. -/
def digitChar (d : Fin 10) : Char := Char.ofNat (48 + d.val)

/-- A two-digit year written with digits `t` (tens) and `o` (ones). -/
def yearStr (t o : Fin 10) : String := String.mk [digitChar t, digitChar o]

def metNames : List String := ["Budget", "LY", "Act"]

def metStr (k : Fin 3) : String := metNames.getD k.val ""

/-- A canonical monthly metric label, e.g. `Budget-Apr-24`. -/
def mkMonthlyLabel (met : Fin 3) (m : Fin 12) (t o : Fin 10) : String :=
  metStr met ++ "-" ++ monthName m ++ "-" ++ yearStr t o

/-- The fiscal-year/range tail shared by the YTD labels:
`YY-YY (Apr to Jun)`. -/
def ytdTail (t1 o1 t2 o2 : Fin 10) : String :=
  yearStr t1 o1 ++ "-" ++ yearStr t2 o2 ++ " (Apr to Jun)"

/-- Raw YTD label with trailing metric: `YTD-YY-YY (Apr to Jun) Act`. -/
def mkRawYtdAct (t1 o1 t2 o2 : Fin 10) : String :=
  "YTD-" ++ ytdTail t1 o1 t2 o2 ++ " Act"

/-- Raw YTD label with trailing metric: `YTD-YY-YY (Apr to Jun) Ach`. -/
def mkRawYtdAch (t1 o1 t2 o2 : Fin 10) : String :=
  "YTD-" ++ ytdTail t1 o1 t2 o2 ++ " Ach"

/-- Canonical metric-prefixed YTD label such as
`Act-YTD-YY-YY (Apr to Jun)`. -/
def mkYtdOut (pre : String) (t1 o1 t2 o2 : Fin 10) : String :=
  pre ++ "-YTD-" ++ ytdTail t1 o1 t2 o2

/-- A carry-over output label `Gr - Mon-YY` or `Ach - Mon-YY`. -/
def mkCarryOut (pre : String) (m : Fin 12) (t o : Fin 10) : String :=
  pre ++ " - " ++ monthName m ++ "-" ++ yearStr t o

/-! ### Evaluation kit for symbolic digit characters

Rewrite rules that let `simp` run the scanners over labels whose
year digits are symbolic `digitChar` values. -/

@[simp] theorem le_A_digitChar : ∀ t : Fin 10, ('A' ≤ digitChar t) = False := by decide

@[simp] theorem le_a_digitChar : ∀ t : Fin 10, ('a' ≤ digitChar t) = False := by decide

@[simp] theorem le_zero_digitChar : ∀ t : Fin 10, ('0' ≤ digitChar t) = True := by decide

@[simp] theorem digitChar_le_nine : ∀ t : Fin 10, (digitChar t ≤ '9') = True := by decide

@[simp] theorem digitChar_ne_space : ∀ t : Fin 10, (digitChar t = ' ') = False := by decide

@[simp] theorem digitChar_ne_tab : ∀ t : Fin 10, (digitChar t = '\t') = False := by decide

@[simp] theorem digitChar_ne_lf : ∀ t : Fin 10, (digitChar t = '\n') = False := by decide

@[simp] theorem digitChar_ne_cr : ∀ t : Fin 10, (digitChar t = '\r') = False := by decide

@[simp] theorem digitChar_ne_dash : ∀ t : Fin 10, (digitChar t = '-') = False := by decide

@[simp] theorem digitChar_ne_endash : ∀ t : Fin 10, (digitChar t = '–') = False := by decide

@[simp] theorem digitChar_ne_underscore : ∀ t : Fin 10, (digitChar t = '_') = False := by decide

@[simp] theorem digitChar_ne_comma : ∀ t : Fin 10, (digitChar t = ',') = False := by decide

@[simp] theorem digitChar_ne_lparen : ∀ t : Fin 10, (digitChar t = '(') = False := by decide

@[simp] theorem digitChar_ne_rparen : ∀ t : Fin 10, (digitChar t = ')') = False := by decide

@[simp] theorem digitChar_ne_upperG : ∀ t : Fin 10, (digitChar t = 'G') = False := by decide

@[simp] theorem digitChar_ne_lowr : ∀ t : Fin 10, (digitChar t = 'r') = False := by decide

@[simp] theorem lowa_ne_digitChar : ∀ t : Fin 10, ('a' = digitChar t) = False := by decide

@[simp] theorem lowb_ne_digitChar : ∀ t : Fin 10, ('b' = digitChar t) = False := by decide

@[simp] theorem lowc_ne_digitChar : ∀ t : Fin 10, ('c' = digitChar t) = False := by decide

@[simp] theorem lowd_ne_digitChar : ∀ t : Fin 10, ('d' = digitChar t) = False := by decide

@[simp] theorem lowe_ne_digitChar : ∀ t : Fin 10, ('e' = digitChar t) = False := by decide

@[simp] theorem lowf_ne_digitChar : ∀ t : Fin 10, ('f' = digitChar t) = False := by decide

@[simp] theorem lowg_ne_digitChar : ∀ t : Fin 10, ('g' = digitChar t) = False := by decide

@[simp] theorem lowh_ne_digitChar : ∀ t : Fin 10, ('h' = digitChar t) = False := by decide

@[simp] theorem lowi_ne_digitChar : ∀ t : Fin 10, ('i' = digitChar t) = False := by decide

@[simp] theorem lowj_ne_digitChar : ∀ t : Fin 10, ('j' = digitChar t) = False := by decide

@[simp] theorem lowl_ne_digitChar : ∀ t : Fin 10, ('l' = digitChar t) = False := by decide

@[simp] theorem lowm_ne_digitChar : ∀ t : Fin 10, ('m' = digitChar t) = False := by decide

@[simp] theorem lown_ne_digitChar : ∀ t : Fin 10, ('n' = digitChar t) = False := by decide

@[simp] theorem lowo_ne_digitChar : ∀ t : Fin 10, ('o' = digitChar t) = False := by decide

@[simp] theorem lowp_ne_digitChar : ∀ t : Fin 10, ('p' = digitChar t) = False := by decide

@[simp] theorem lowr_ne_digitChar : ∀ t : Fin 10, ('r' = digitChar t) = False := by decide

@[simp] theorem lows_ne_digitChar : ∀ t : Fin 10, ('s' = digitChar t) = False := by decide

@[simp] theorem lowt_ne_digitChar : ∀ t : Fin 10, ('t' = digitChar t) = False := by decide

@[simp] theorem lowu_ne_digitChar : ∀ t : Fin 10, ('u' = digitChar t) = False := by decide

@[simp] theorem lowv_ne_digitChar : ∀ t : Fin 10, ('v' = digitChar t) = False := by decide

@[simp] theorem lowy_ne_digitChar : ∀ t : Fin 10, ('y' = digitChar t) = False := by decide

@[simp] theorem dash_ne_digitChar : ∀ t : Fin 10, ('-' = digitChar t) = False := by decide

@[simp] theorem upperY_ne_digitChar : ∀ t : Fin 10, ('Y' = digitChar t) = False := by decide

@[simp] theorem upperG_ne_digitChar : ∀ t : Fin 10, ('G' = digitChar t) = False := by decide

@[simp] theorem upperA_ne_digitChar : ∀ t : Fin 10, ('A' = digitChar t) = False := by decide

/-- String concatenation in terms of the underlying character
lists. -/
@[simp] theorem string_append_eq_mk (a b : String) : a ++ b = String.mk (a.data ++ b.data) := by
  cases a; cases b; rfl

/-! ### How the rename pass treats each label shape

One lemma per vocabulary shape, with the year digits symbolic and the
carry-over state arbitrary. -/

set_option maxHeartbeats 1000000 in
/-- A monthly metric label passes through unchanged and loads the
carry-over accumulator with its capitalized month and its year. -/
theorem renameOne_monthly (met : Fin 3) (m : Fin 12) (t o : Fin 10) (st : RenameSt) :
    renameOne st (mkMonthlyLabel met m t o) =
      .ok (mkMonthlyLabel met m t o, some ((monthName m).data, [digitChar t, digitChar o])) := by
  fin_cases met <;> fin_cases m <;>
    simp [renameOne, mkMonthlyLabel, metStr, metNames, monthName, fiscalMonthNames, yearStr,
      cleanLabel, stripStr, stripEnd, dropCommas, dashify, searchPos, ytdActAt, grYtdAt,
      achYtdAt, ytdAchAltAt, ytdCoreRest, matchLitCi, eqCi, monthlySearch, monthlyScan,
      monthlyAt, wordTryDesc, sepTryDesc, digits2, capitalizeStr, isPrefixOfChars,
      lowerStr, isWordChar, isSpaceChar, isDigitChar, ytdSepChar, monthlySepChar,
      lowerChar, upperChar]

/-- A bare `Gr` label with an empty accumulator passes through. -/
theorem renameOne_bareGr_none : renameOne none "Gr" = .ok ("Gr", none) := rfl

/-- A bare `Ach` label with an empty accumulator passes through. -/
theorem renameOne_bareAch_none : renameOne none "Ach" = .ok ("Ach", none) := rfl

/-- A bare `Gr` label inherits the carried month/year. -/
theorem renameOne_bareGr_some (mm yy : List Char) :
    renameOne (some (mm, yy)) "Gr" =
      .ok (String.mk (('G' :: 'r' :: ' ' :: '-' :: ' ' :: mm) ++ '-' :: yy), some (mm, yy)) := by
  simp [renameOne, cleanLabel, stripStr, stripEnd, dropCommas, dashify, searchPos, ytdActAt,
    grYtdAt, achYtdAt, ytdAchAltAt, ytdCoreRest, matchLitCi, eqCi, monthlySearch, monthlyScan,
    monthlyAt, wordTryDesc, sepTryDesc, digits2, isPrefixOfChars, lowerStr,
    isWordChar, isSpaceChar, isDigitChar, ytdSepChar, monthlySepChar, lowerChar]

/-- A bare `Ach` label inherits the carried month/year. -/
theorem renameOne_bareAch_some (mm yy : List Char) :
    renameOne (some (mm, yy)) "Ach" =
      .ok (String.mk (('A' :: 'c' :: 'h' :: ' ' :: '-' :: ' ' :: mm) ++ '-' :: yy),
        some (mm, yy)) := by
  simp [renameOne, cleanLabel, stripStr, stripEnd, dropCommas, dashify, searchPos, ytdActAt,
    grYtdAt, achYtdAt, ytdAchAltAt, ytdCoreRest, matchLitCi, eqCi, monthlySearch, monthlyScan,
    monthlyAt, wordTryDesc, sepTryDesc, digits2, isPrefixOfChars, lowerStr,
    isWordChar, isSpaceChar, isDigitChar, ytdSepChar, monthlySepChar, lowerChar]

set_option maxHeartbeats 2000000 in
/-- `YTD-YY-YY (Apr to Mon) Act` is rewritten to
`Act-YTD-YY-YY (Apr to Mon)`; the accumulator is untouched. -/
theorem renameOne_rawActY (t1 o1 t2 o2 : Fin 10) (st : RenameSt) :
    renameOne st (mkRawYtdAct t1 o1 t2 o2) = .ok (mkYtdOut "Act" t1 o1 t2 o2, st) := by
  simp [renameOne, mkRawYtdAct, mkYtdOut, ytdTail, monthName, fiscalMonthNames, yearStr,
      cleanLabel, stripStr, stripEnd, dropCommas, dashify, searchPos, ytdActAt, grYtdAt,
      achYtdAt, ytdAchAltAt, ytdCoreRest, matchLitCi, eqCi, digits2, isPrefixOfChars,
      lowerStr, isWordChar, isSpaceChar, isDigitChar, ytdSepChar, monthlySepChar, lowerChar]

set_option maxHeartbeats 2000000 in
/-- `YTD-YY-YY (Apr to Mon) Ach` is rewritten to
`Ach-YTD-YY-YY (Apr to Mon)`; the accumulator is untouched. -/
theorem renameOne_rawAchAlt (t1 o1 t2 o2 : Fin 10) (st : RenameSt) :
    renameOne st (mkRawYtdAch t1 o1 t2 o2) = .ok (mkYtdOut "Ach" t1 o1 t2 o2, st) := by
  simp [renameOne, mkRawYtdAch, mkYtdOut, ytdTail, monthName, fiscalMonthNames, yearStr,
      cleanLabel, stripStr, stripEnd, dropCommas, dashify, searchPos, ytdActAt, grYtdAt,
      achYtdAt, ytdAchAltAt, ytdCoreRest, matchLitCi, eqCi, digits2, isPrefixOfChars,
      lowerStr, isWordChar, isSpaceChar, isDigitChar, ytdSepChar, monthlySepChar, lowerChar]

set_option maxHeartbeats 2000000 in
/-- `Gr-YTD-YY-YY (Apr to Mon)` is a fixpoint of the pass; the
accumulator is untouched. -/
theorem renameOne_grY (t1 o1 t2 o2 : Fin 10) (st : RenameSt) :
    renameOne st (mkYtdOut "Gr" t1 o1 t2 o2) = .ok (mkYtdOut "Gr" t1 o1 t2 o2, st) := by
  simp [renameOne, mkYtdOut, ytdTail, monthName, fiscalMonthNames, yearStr,
      cleanLabel, stripStr, stripEnd, dropCommas, dashify, searchPos, ytdActAt, grYtdAt,
      achYtdAt, ytdAchAltAt, ytdCoreRest, matchLitCi, eqCi, digits2, isPrefixOfChars,
      lowerStr, isWordChar, isSpaceChar, isDigitChar, ytdSepChar, monthlySepChar, lowerChar,
      splitGrDash, consPiece]

set_option maxHeartbeats 2000000 in
/-- `Ach-YTD-YY-YY (Apr to Mon)` is a fixpoint of the pass; the
accumulator is untouched. -/
theorem renameOne_achY (t1 o1 t2 o2 : Fin 10) (st : RenameSt) :
    renameOne st (mkYtdOut "Ach" t1 o1 t2 o2) = .ok (mkYtdOut "Ach" t1 o1 t2 o2, st) := by
  simp [renameOne, mkYtdOut, ytdTail, monthName, fiscalMonthNames, yearStr,
      cleanLabel, stripStr, stripEnd, dropCommas, dashify, searchPos, ytdActAt, grYtdAt,
      achYtdAt, ytdAchAltAt, ytdCoreRest, matchLitCi, eqCi, digits2, isPrefixOfChars,
      lowerStr, isWordChar, isSpaceChar, isDigitChar, ytdSepChar, monthlySepChar, lowerChar]

set_option maxHeartbeats 2000000 in
/-- `Act-YTD-YY-YY (Apr to Mon)` (an output of the pass) passes
through unchanged, but it RELOADS the accumulator with the bogus
month `Ytd` and the range start year: on a second pass it feeds the
carry-over rule. -/
theorem renameOne_actYOut (t1 o1 t2 o2 : Fin 10) (st : RenameSt) :
    renameOne st (mkYtdOut "Act" t1 o1 t2 o2) =
      .ok (mkYtdOut "Act" t1 o1 t2 o2, some (['Y', 't', 'd'], [digitChar t1, digitChar o1])) := by
  simp [renameOne, mkYtdOut, ytdTail, monthName, fiscalMonthNames, yearStr,
      cleanLabel, stripStr, stripEnd, dropCommas, dashify, searchPos, ytdActAt, grYtdAt,
      achYtdAt, ytdAchAltAt, ytdCoreRest, matchLitCi, eqCi, monthlySearch, monthlyScan,
      monthlyAt, wordTryDesc, sepTryDesc, digits2, capitalizeStr, isPrefixOfChars,
      lowerStr, isWordChar, isSpaceChar, isDigitChar, ytdSepChar, monthlySepChar,
      lowerChar, upperChar]

set_option maxHeartbeats 2000000 in
/-- A carry-over output `Gr - Mon-YY` is a fixpoint and reloads the
accumulator with its own month/year. -/
theorem renameOne_carryGr (m : Fin 12) (t o : Fin 10) (st : RenameSt) :
    renameOne st (mkCarryOut "Gr" m t o) =
      .ok (mkCarryOut "Gr" m t o, some ((monthName m).data, [digitChar t, digitChar o])) := by
  fin_cases m <;>
    simp [renameOne, mkCarryOut, monthName, fiscalMonthNames, yearStr,
      cleanLabel, stripStr, stripEnd, dropCommas, dashify, searchPos, ytdActAt, grYtdAt,
      achYtdAt, ytdAchAltAt, ytdCoreRest, matchLitCi, eqCi, monthlySearch, monthlyScan,
      monthlyAt, wordTryDesc, sepTryDesc, digits2, capitalizeStr, isPrefixOfChars,
      lowerStr, isWordChar, isSpaceChar, isDigitChar, ytdSepChar, monthlySepChar,
      lowerChar, upperChar]

set_option maxHeartbeats 2000000 in
/-- A carry-over output `Ach - Mon-YY` is a fixpoint and reloads the
accumulator with its own month/year. -/
theorem renameOne_carryAch (m : Fin 12) (t o : Fin 10) (st : RenameSt) :
    renameOne st (mkCarryOut "Ach" m t o) =
      .ok (mkCarryOut "Ach" m t o, some ((monthName m).data, [digitChar t, digitChar o])) := by
  fin_cases m <;>
    simp [renameOne, mkCarryOut, monthName, fiscalMonthNames, yearStr,
      cleanLabel, stripStr, stripEnd, dropCommas, dashify, searchPos, ytdActAt, grYtdAt,
      achYtdAt, ytdAchAltAt, ytdCoreRest, matchLitCi, eqCi, monthlySearch, monthlyScan,
      monthlyAt, wordTryDesc, sepTryDesc, digits2, capitalizeStr, isPrefixOfChars,
      lowerStr, isWordChar, isSpaceChar, isDigitChar, ytdSepChar, monthlySepChar,
      lowerChar, upperChar]

/-! ### One- and two-pass semantics over the vocabulary -/

/-- Descriptors for the raw label shapes of the §4.3 vocabulary. -/
inductive Lab where
  | monthly (met : Fin 3) (m : Fin 12) (t o : Fin 10)
  | bareGr
  | bareAch
  | rawActY (t1 o1 t2 o2 : Fin 10)
  | rawAchAlt (t1 o1 t2 o2 : Fin 10)
  | grY (t1 o1 t2 o2 : Fin 10)
  | achY (t1 o1 t2 o2 : Fin 10)

/-- The raw label string of a descriptor. -/
def toRaw : Lab → String
  | .monthly met m t o => mkMonthlyLabel met m t o
  | .bareGr => "Gr"
  | .bareAch => "Ach"
  | .rawActY t1 o1 t2 o2 => mkRawYtdAct t1 o1 t2 o2
  | .rawAchAlt t1 o1 t2 o2 => mkRawYtdAch t1 o1 t2 o2
  | .grY t1 o1 t2 o2 => mkYtdOut "Gr" t1 o1 t2 o2
  | .achY t1 o1 t2 o2 => mkYtdOut "Ach" t1 o1 t2 o2

/-- The output label the pass produces for a descriptor under
carry-over state `s`. -/
def outLab (s : RenameSt) : Lab → String
  | .monthly met m t o => mkMonthlyLabel met m t o
  | .bareGr =>
    match s with
    | some (mm, yy) => String.mk (('G' :: 'r' :: ' ' :: '-' :: ' ' :: mm) ++ '-' :: yy)
    | none => "Gr"
  | .bareAch =>
    match s with
    | some (mm, yy) => String.mk (('A' :: 'c' :: 'h' :: ' ' :: '-' :: ' ' :: mm) ++ '-' :: yy)
    | none => "Ach"
  | .rawActY t1 o1 t2 o2 => mkYtdOut "Act" t1 o1 t2 o2
  | .rawAchAlt t1 o1 t2 o2 => mkYtdOut "Ach" t1 o1 t2 o2
  | .grY t1 o1 t2 o2 => mkYtdOut "Gr" t1 o1 t2 o2
  | .achY t1 o1 t2 o2 => mkYtdOut "Ach" t1 o1 t2 o2

/-- The carry-over state after processing a descriptor. -/
def stLab (s : RenameSt) : Lab → RenameSt
  | .monthly _ m t o => some ((monthName m).data, [digitChar t, digitChar o])
  | _ => s

/-- Outputs of one full pass started in state `s`. -/
def outList (s : RenameSt) : List Lab → List String
  | [] => []
  | l :: ls => outLab s l :: outList (stLab s l) ls

/-- Final state of one full pass started in state `s`. -/
def stList (s : RenameSt) : List Lab → RenameSt
  | [] => s
  | l :: ls => stList (stLab s l) ls

/-- The side condition forced by the counterexample: before the first
monthly label, no bare `Gr`/`Ach` may follow a trailing-`Act` YTD
label (flag `b` records that such a YTD label has been seen). -/
def safe : Bool → List Lab → Bool
  | _, [] => true
  | b, l :: ls =>
    match l with
    | .monthly .. => true
    | .rawActY .. => safe true ls
    | .bareGr => !b && safe b ls
    | .bareAch => !b && safe b ls
    | _ => safe b ls

/-- The rename-loop body realizes the vocabulary semantics. -/
theorem renameOne_toRaw (s : RenameSt) (l : Lab) :
    renameOne s (toRaw l) = .ok (outLab s l, stLab s l) := by
  cases l with
  | monthly met m t o => simpa [toRaw, outLab, stLab] using renameOne_monthly met m t o s
  | bareGr =>
    cases s with
    | none => simpa [toRaw, outLab, stLab] using renameOne_bareGr_none
    | some p => simpa [toRaw, outLab, stLab] using renameOne_bareGr_some p.1 p.2
  | bareAch =>
    cases s with
    | none => simpa [toRaw, outLab, stLab] using renameOne_bareAch_none
    | some p => simpa [toRaw, outLab, stLab] using renameOne_bareAch_some p.1 p.2
  | rawActY t1 o1 t2 o2 => simpa [toRaw, outLab, stLab] using renameOne_rawActY t1 o1 t2 o2 s
  | rawAchAlt t1 o1 t2 o2 => simpa [toRaw, outLab, stLab] using renameOne_rawAchAlt t1 o1 t2 o2 s
  | grY t1 o1 t2 o2 => simpa [toRaw, outLab, stLab] using renameOne_grY t1 o1 t2 o2 s
  | achY t1 o1 t2 o2 => simpa [toRaw, outLab, stLab] using renameOne_achY t1 o1 t2 o2 s

/-- The first pass computes `outList`/`stList`. -/
theorem renameFold_pass1 : ∀ (ls : List Lab) (s : RenameSt),
    renameFold s (ls.map toRaw) = .ok (outList s ls, stList s ls)
  | [], _ => rfl
  | l :: ls, s => by
    simp [renameFold, renameOne_toRaw, outList, stList, renameFold_pass1 ls (stLab s l)]

/-- A carry-over output assembled from a good pair is a `mkCarryOut`
label. -/
theorem carryGr_eq (m : Fin 12) (t o : Fin 10) :
    String.mk (('G' :: 'r' :: ' ' :: '-' :: ' ' :: (monthName m).data) ++
        '-' :: [digitChar t, digitChar o]) = mkCarryOut "Gr" m t o := by
  simp [mkCarryOut, yearStr]

/-- A carry-over output assembled from a good pair is a `mkCarryOut`
label. -/
theorem carryAch_eq (m : Fin 12) (t o : Fin 10) :
    String.mk (('A' :: 'c' :: 'h' :: ' ' :: '-' :: ' ' :: (monthName m).data) ++
        '-' :: [digitChar t, digitChar o]) = mkCarryOut "Ach" m t o := by
  simp [mkCarryOut, yearStr]

/-- Second pass over the outputs, when the first pass already carries
a month/year pair: every output is a fixpoint. -/
theorem pass2_some : ∀ (ls : List Lab) (m : Fin 12) (t o : Fin 10) (s2 : RenameSt),
    ∃ s3, renameFold s2 (outList (some ((monthName m).data, [digitChar t, digitChar o])) ls) =
      .ok (outList (some ((monthName m).data, [digitChar t, digitChar o])) ls, s3)
  | [], _, _, _, s2 => ⟨s2, rfl⟩
  | l :: ls, m, t, o, s2 => by
    cases l with
    | monthly met m' t' o' =>
      obtain ⟨s3, h⟩ := pass2_some ls m' t' o'
        (some ((monthName m').data, [digitChar t', digitChar o']))
      exact ⟨s3, by simp [outList, stLab, outLab, renameFold, renameOne_monthly, h]⟩
    | bareGr =>
      obtain ⟨s3, h⟩ := pass2_some ls m t o (some ((monthName m).data, [digitChar t, digitChar o]))
      refine ⟨s3, ?_⟩
      simp only [outList, stLab, outLab, carryGr_eq]
      simp [renameFold, renameOne_carryGr, h]
    | bareAch =>
      obtain ⟨s3, h⟩ := pass2_some ls m t o (some ((monthName m).data, [digitChar t, digitChar o]))
      refine ⟨s3, ?_⟩
      simp only [outList, stLab, outLab, carryAch_eq]
      simp [renameFold, renameOne_carryAch, h]
    | rawActY t1 o1 t2 o2 =>
      obtain ⟨s3, h⟩ := pass2_some ls m t o (some (['Y', 't', 'd'], [digitChar t1, digitChar o1]))
      exact ⟨s3, by simp [outList, stLab, outLab, renameFold, renameOne_actYOut, h]⟩
    | rawAchAlt t1 o1 t2 o2 =>
      obtain ⟨s3, h⟩ := pass2_some ls m t o s2
      exact ⟨s3, by simp [outList, stLab, outLab, renameFold, renameOne_achY, h]⟩
    | grY t1 o1 t2 o2 =>
      obtain ⟨s3, h⟩ := pass2_some ls m t o s2
      exact ⟨s3, by simp [outList, stLab, outLab, renameFold, renameOne_grY, h]⟩
    | achY t1 o1 t2 o2 =>
      obtain ⟨s3, h⟩ := pass2_some ls m t o s2
      exact ⟨s3, by simp [outList, stLab, outLab, renameFold, renameOne_achY, h]⟩

/-- Second pass over the outputs, when the first pass has not yet
seen a monthly label: under `safe` the outputs are fixpoints. -/
theorem pass2_none : ∀ (ls : List Lab) (b : Bool) (s2 : RenameSt), safe b ls = true →
    (b = false → s2 = none) →
    ∃ s3, renameFold s2 (outList none ls) = .ok (outList none ls, s3)
  | [], _, s2, _, _ => ⟨s2, rfl⟩
  | l :: ls, b, s2, hsafe, hs2 => by
    cases l with
    | monthly met m' t' o' =>
      obtain ⟨s3, h⟩ := pass2_some ls m' t' o'
        (some ((monthName m').data, [digitChar t', digitChar o']))
      exact ⟨s3, by simp [outList, stLab, outLab, renameFold, renameOne_monthly, h]⟩
    | bareGr =>
      have hb : b = false ∧ safe b ls = true := by
        simpa [safe, Bool.and_eq_true] using hsafe
      obtain ⟨s3, h⟩ := pass2_none ls b none hb.2 (fun _ => rfl)
      refine ⟨s3, ?_⟩
      have h2 : s2 = none := hs2 hb.1
      subst h2
      simp [outList, stLab, outLab, renameFold, renameOne_bareGr_none, h]
    | bareAch =>
      have hb : b = false ∧ safe b ls = true := by
        simpa [safe, Bool.and_eq_true] using hsafe
      obtain ⟨s3, h⟩ := pass2_none ls b none hb.2 (fun _ => rfl)
      refine ⟨s3, ?_⟩
      have h2 : s2 = none := hs2 hb.1
      subst h2
      simp [outList, stLab, outLab, renameFold, renameOne_bareAch_none, h]
    | rawActY t1 o1 t2 o2 =>
      have hsafe2 : safe true ls = true := by simpa [safe] using hsafe
      obtain ⟨s3, h⟩ := pass2_none ls true
        (some (['Y', 't', 'd'], [digitChar t1, digitChar o1])) hsafe2 (by simp)
      exact ⟨s3, by simp [outList, stLab, outLab, renameFold, renameOne_actYOut, h]⟩
    | rawAchAlt t1 o1 t2 o2 =>
      have hsafe2 : safe b ls = true := by simpa [safe] using hsafe
      obtain ⟨s3, h⟩ := pass2_none ls b s2 hsafe2 hs2
      exact ⟨s3, by simp [outList, stLab, outLab, renameFold, renameOne_achY, h]⟩
    | grY t1 o1 t2 o2 =>
      have hsafe2 : safe b ls = true := by simpa [safe] using hsafe
      obtain ⟨s3, h⟩ := pass2_none ls b s2 hsafe2 hs2
      exact ⟨s3, by simp [outList, stLab, outLab, renameFold, renameOne_grY, h]⟩
    | achY t1 o1 t2 o2 =>
      have hsafe2 : safe b ls = true := by simpa [safe] using hsafe
      obtain ⟨s3, h⟩ := pass2_none ls b s2 hsafe2 hs2
      exact ⟨s3, by simp [outList, stLab, outLab, renameFold, renameOne_achY, h]⟩

/-- C2 counterexample.  On `["YTD-25-26 (Apr to Jun) Act", "Gr"]`
the first pass leaves the bare `Gr` alone (the accumulator is still
empty), but its own output `Act-YTD-25-26 (Apr to Jun)` matches the
monthly pattern on the second pass, so the second pass rewrites
`Gr` to `Gr - Ytd-25`: `canon (canon x) ≠ canon x`. -/
theorem rename_columns_not_idempotent :
    rename_columns ["YTD-25-26 (Apr to Jun) Act", "Gr"] =
      .ok ["Act-YTD-25-26 (Apr to Jun)", "Gr"] ∧
    rename_columns ["Act-YTD-25-26 (Apr to Jun)", "Gr"] =
      .ok ["Act-YTD-25-26 (Apr to Jun)", "Gr - Ytd-25"] ∧
    ["Act-YTD-25-26 (Apr to Jun)", "Gr - Ytd-25"] ≠
      ["Act-YTD-25-26 (Apr to Jun)", "Gr"] :=
  ⟨rfl, rfl, by decide⟩

/-- C2 (amended).  Over the §4.3 vocabulary — monthly metric labels
`Budget|LY|Act-Mon-YY` with any month and two-digit year, bare
`Gr`/`Ach` carry-over labels, and the four YTD shapes
`YTD-YY-YY (Apr to Jun) Act|Ach`, `Gr-YTD-…`, `Ach-YTD-…` with any
year digits — the rename pass is idempotent provided no bare
`Gr`/`Ach` label follows a trailing-`Act` YTD label before the first
monthly label (the configuration the counterexample exhibits). -/
theorem rename_columns_idempotent_of_safe (ls : List Lab) (h : safe false ls = true)
    (ys : List String) (hy : rename_columns (ls.map toRaw) = .ok ys) :
    rename_columns ys = .ok ys := by
  have h1 := renameFold_pass1 ls none
  have hys : ys = outList none ls := by
    rw [rename_columns, h1] at hy
    simpa [Except.map] using hy.symm
  obtain ⟨s3, h2⟩ := pass2_none ls false none h (fun _ => rfl)
  rw [hys, rename_columns, h2]
  rfl

/-- C2 witness: a safe list touching every shape — a leading bare
`Gr`, a monthly label, a trailing-`Act` YTD label and a bare `Ach`
that inherits the monthly period. -/
theorem rename_columns_idempotent_witness :
    safe false [Lab.bareGr, Lab.monthly 0 0 2 4, Lab.rawActY 2 5 2 6, Lab.bareAch] = true ∧
    rename_columns
        ([Lab.bareGr, Lab.monthly 0 0 2 4, Lab.rawActY 2 5 2 6, Lab.bareAch].map toRaw) =
      .ok ["Gr", "Budget-Apr-24", "Act-YTD-25-26 (Apr to Jun)", "Ach - Apr-24"] ∧
    rename_columns ["Gr", "Budget-Apr-24", "Act-YTD-25-26 (Apr to Jun)", "Ach - Apr-24"] =
      .ok ["Gr", "Budget-Apr-24", "Act-YTD-25-26 (Apr to Jun)", "Ach - Apr-24"] :=
  ⟨rfl, rfl,
    rename_columns_idempotent_of_safe
      [Lab.bareGr, Lab.monthly 0 0 2 4, Lab.rawActY 2 5 2 6, Lab.bareAch] rfl
      ["Gr", "Budget-Apr-24", "Act-YTD-25-26 (Apr to Jun)", "Ach - Apr-24"] rfl⟩

/-- The rename fold emits exactly one output label per input label. -/
theorem renameFold_length : ∀ (cols : List String) (s : RenameSt) (ys : List String)
    (s3 : RenameSt), renameFold s cols = .ok (ys, s3) → ys.length = cols.length := by
  intro cols
  induction cols with
  | nil =>
    intro s ys s3 h
    rw [renameFold] at h
    cases h
    rfl
  | cons c tl ih =>
    intro s ys s3 h
    rw [renameFold] at h
    cases h1 : renameOne s c with
    | error e => rw [h1] at h; cases h
    | ok p =>
      obtain ⟨o1, st2⟩ := p
      rw [h1] at h
      dsimp only at h
      cases h2 : renameFold st2 tl with
      | error e => rw [h2] at h; cases h
      | ok q =>
        obtain ⟨os, st3⟩ := q
        rw [h2] at h
        dsimp only at h
        cases h
        simpa using ih st2 os _ h2

/-- C10 counterexample: on the case-variant label
`GR-YTD-25-26 (Apr to Jun)` rule 2 matches case-insensitively but
`split('Gr-')` finds no exact-case separator, so `[1]` raises an
uncaught `IndexError` — `rename_columns` returns no list at all,
in particular none of the input length. -/
theorem rename_columns_raises_on_caps :
    rename_columns ["GR-YTD-25-26 (Apr to Jun)"] = .error () ∧
    ∀ ys : List String, rename_columns ["GR-YTD-25-26 (Apr to Jun)"] ≠ .ok ys := by
  refine ⟨rfl, fun ys h => ?_⟩
  rw [show rename_columns ["GR-YTD-25-26 (Apr to Jun)"] = .error () from rfl] at h
  cases h

/-- C10 (amended): whenever `rename_columns` returns at all, it
returns exactly one output label per input position, in order. -/
theorem rename_columns_preserves_length (cols ys : List String)
    (h : rename_columns cols = .ok ys) : ys.length = cols.length := by
  rw [rename_columns] at h
  cases h1 : renameFold none cols with
  | error e => rw [h1] at h; cases h
  | ok p =>
    rw [h1] at h
    cases h
    exact renameFold_length cols none p.1 p.2 h1

/-- C10 witness: a two-label input returns two labels. -/
theorem rename_columns_preserves_length_witness :
    rename_columns ["Budget-Apr-24", "Gr"] = .ok ["Budget-Apr-24", "Gr - Apr-24"] ∧
    (["Budget-Apr-24", "Gr - Apr-24"] : List String).length =
      (["Budget-Apr-24", "Gr"] : List String).length :=
  ⟨rfl, rename_columns_preserves_length ["Budget-Apr-24", "Gr"]
    ["Budget-Apr-24", "Gr - Apr-24"] rfl⟩

/-! ### Fiscal-period sort keys (`get_fiscal_sort_key`, line 1283;
`get_sort_key`, line 1404; the §4.4 `fiscalKey`) -/

/-- Numeric value of a digit string. -/
def yearToNat (d : List Char) : Nat :=
  d.foldl (fun n c => n * 10 + (c.toNat - 48)) 0

/-- `str.extract(r'^(\w{3})')`: the anchored first three word
characters, if present. -/
def monthOnly (l : List Char) : Option (List Char) :=
  match l with
  | a :: b :: c :: _ =>
    if isWordChar a && isWordChar b && isWordChar c then some [a, b, c] else none
  | _ => none

/-- `re.search(r'[-–](\d{2})', …)`: first dash followed by two
digits (no word-boundary check). -/
def dashYearScan : List Char → Option (List Char)
  | [] => none
  | c :: t =>
    match t with
    | d1 :: d2 :: _ =>
      if (c = '-' || c = '–') && isDigitChar d1 && isDigitChar d2 then some [d1, d2]
      else dashYearScan t
    | _ => dashYearScan t

/-- Index of a string in a list. -/
def idxOfStr (x : String) : List String → Option Nat
  | [] => none
  | a :: t => if a = x then some 0 else (idxOfStr x t).map (· + 1)

/-- `get_fiscal_sort_key` (lines 1283–1292): fiscal month index with
April = 0; for January–March it uses `int(year) + 1`. -/
def get_fiscal_sort_key (month : String) : Int × Nat :=
  let yr : List Char :=
    match dashYearScan month.data with
    | some d => d
    | none => ['0', '0']
  match monthOnly month.data with
  | none => (0, 99)
  | some mchars =>
    match idxOfStr (String.mk mchars) fiscalMonthNames with
    | none => (0, 99)
    | some i => (if i < 9 then (yearToNat yr : Int) else (yearToNat yr : Int) + 1, i)

/-- Backtracking for `(\w{3,})[-–](\d{2})`: longest word prefix
first, one separator, two digits. -/
def wordNumTryDesc (l : List Char) : Nat → Option (List Char × List Char)
  | 0 => none
  | k + 1 =>
    if k + 1 < 3 then none
    else
      match l.drop (k + 1) with
      | s :: r2 =>
        if s = '-' || s = '–' then
          match digits2 r2 with
          | some d => some (l.take (k + 1), d)
          | none => wordNumTryDesc l k
        else wordNumTryDesc l k
      | [] => wordNumTryDesc l k

def wordNumAt (l : List Char) : Option (List Char × List Char) :=
  wordNumTryDesc l (l.takeWhile isWordChar).length

/-- `re.search(r'(\w{3,})[-–](\d{2})', …)`. -/
def wordNumScan : List Char → Option (List Char × List Char)
  | [] => none
  | c :: t =>
    match wordNumAt (c :: t) with
    | some g => some g
    | none => wordNumScan t

/-- `get_sort_key` (lines 1404–1415): month order with April = 1;
for January–March it uses `int(year) − 1`. -/
def get_sort_key (monthStr : String) : Int × Nat :=
  match wordNumScan monthStr.data with
  | some (w, d) =>
    let mi : Nat :=
      match idxOfStr (String.mk (capitalizeStr w)) fiscalMonthNames with
      | some i => i + 1
      | none => 99
    ((if mi ≥ 10 then (yearToNat d : Int) - 1 else (yearToNat d : Int)), mi)
  | none => (0, 99)

/-- Modelled from the spec (§4.4): `fiscalKey(month, year2)` with
April = index 0 through March = index 11; `fiscalYear = year2` for
indices ≤ 8 and `year2 − 1` for indices ≥ 9; the key is
`(fiscalYear, monthIndex)`. -/
def fiscalKey (monthIdx : Fin 12) (year2 : Int) : Int × Nat :=
  (if monthIdx.val ≤ 8 then year2 else year2 - 1, monthIdx.val)

/-- Strict lexicographic order on sort keys. -/
def keyLt (a b : Int × Nat) : Prop :=
  a.1 < b.1 ∨ (a.1 = b.1 ∧ a.2 < b.2)

instance (a b : Int × Nat) : Decidable (keyLt a b) :=
  inferInstanceAs (Decidable (a.1 < b.1 ∨ (a.1 = b.1 ∧ a.2 < b.2)))

/-- C1.  On the pair `Jan-25` / `Apr-25`: `get_fiscal_sort_key`
(which adds one to the year for January–March) sorts `Apr-25`
before `Jan-25`, while the §4.4 `fiscalKey` (January–March get
`year − 1`) and `get_sort_key` both put `Jan-25` (fiscal year 24)
strictly before `Apr-25` (fiscal year 25).  The two sort-key
functions in the code therefore do not compute the same ordering,
and `get_fiscal_sort_key` contradicts the spec definition. -/
theorem fiscal_sort_keys_disagree :
    get_fiscal_sort_key "Jan-25" = (26, 9) ∧
    get_fiscal_sort_key "Apr-25" = (25, 0) ∧
    keyLt (get_fiscal_sort_key "Apr-25") (get_fiscal_sort_key "Jan-25") ∧
    fiscalKey ⟨9, by omega⟩ 25 = (24, 9) ∧
    fiscalKey ⟨0, by omega⟩ 25 = (25, 0) ∧
    keyLt (fiscalKey ⟨9, by omega⟩ 25) (fiscalKey ⟨0, by omega⟩ 25) ∧
    get_sort_key "Jan-25" = (24, 10) ∧
    get_sort_key "Apr-25" = (25, 1) ∧
    keyLt (get_sort_key "Jan-25") (get_sort_key "Apr-25") := by
  refine ⟨rfl, rfl, by decide, rfl, rfl, by decide, rfl, rfl, by decide⟩

/-! ### DimensionExtractor (`extract_unique_values`, lines 1086–1094) -/

/-- Keep-first de-duplication (pandas `unique`). -/
def dedupFirstAux (seen : List String) : List String → List String
  | [] => []
  | a :: t => if a ∈ seen then dedupFirstAux seen t else a :: dedupFirstAux (a :: seen) t

def dedupFirst (l : List String) : List String := dedupFirstAux [] l

/-- Code-point-wise `≤` on character lists, as Python compares
strings. -/
def charsLe : List Char → List Char → Bool
  | [], _ => true
  | _ :: _, [] => false
  | a :: s, b :: t => if a = b then charsLe s t else decide (a < b)

def strLeB (a b : String) : Bool := charsLe a.data b.data

def insertSorted (x : String) : List String → List String
  | [] => [x]
  | a :: t => if strLeB x a then x :: a :: t else a :: insertSorted x t

/-- Python `sorted` on strings: ascending lexicographic insertion
sort. -/
def pySorted : List String → List String
  | [] => []
  | a :: t => insertSorted a (pySorted t)

/-- `extract_unique_values(df, first_col, exclude_terms=None)`
(lines 1086–1094): non-null leading-column values, stringified and
trimmed, de-duplicated and sorted.  The `excludeTerms` parameter is
accepted and — exactly as in the source — never used. -/
def extract_unique_values (vals : List (Option String))
    (excludeTerms : Option (List String)) : List String :=
  let valid := vals.filterMap id
  let _ := excludeTerms
  pySorted (dedupFirst (valid.map (fun s => String.mk (stripStr s.data))))

/-- C4.  On the spec example — leading values
`["North", "South", "Total Sales"]` with a stoplist containing
`"total sales"` — the code returns all three values: the stoplist
(`exclude_terms`) is never applied, so `"Total Sales"` is not
removed as §4.5 requires. -/
theorem extract_unique_values_ignores_stoplist :
    extract_unique_values [some "North", some "South", some "Total Sales"]
        (some ["total sales"]) = ["North", "South", "Total Sales"] ∧
    (["North", "South", "Total Sales"] : List String) ≠ ["North", "South"] :=
  ⟨rfl, by decide⟩

/-! ### FilterEngine (`column_filter`, lines 1123–1131) -/

/-- The label normalization inside `column_filter`:
`str(col).lower().replace(",", "").replace("–", "-")` (no strip). -/
def normCol (col : String) : List Char :=
  dashify (dropCommas (lowerStr col.data))

/-- The year test `any(f"-{y}" in col_str for y in selected_years)
if selected_years else True`, shared by both branches of
`column_filter`. -/
def yearFacet (selYears : List String) (cs : List Char) : Bool :=
  match selYears with
  | [] => true
  | _ :: _ => selYears.any (fun y => containsSub cs ('-' :: y.data))

/-- `column_filter` (lines 1123–1131).  The locals `month_match`
and `year_match` of the source are inlined. -/
def column_filter (selMonths selYears : List String) (col : String) : Bool :=
  if containsSub (normCol col) ['y', 't', 'd'] then yearFacet selYears (normCol col)
  else
    (selMonths.any (fun m => containsSub (normCol col) (lowerStr m.data))) &&
      yearFacet selYears (normCol col)

/-- Modelled from the spec: the fiscal year pair named in a YTD
label — the first two two-digit groups after the `ytd` token; the
claim refers to the second one as the fiscal end-year. -/
def ytdYearsAt (l : List Char) : Option (List Char × List Char) :=
  match matchLitCi ['y', 't', 'd'] l with
  | some r1 =>
    match r1.dropWhile ytdSepChar with
    | d1 :: d2 :: r3 =>
      if isDigitChar d1 && isDigitChar d2 then
        match r3.dropWhile ytdSepChar with
        | e1 :: e2 :: _ =>
          if isDigitChar e1 && isDigitChar e2 then some ([d1, d2], [e1, e2]) else none
        | _ => none
      else none
    | _ => none
  | none => none

def ytdYearsScan : List Char → Option (List Char × List Char)
  | [] => none
  | c :: t =>
    match ytdYearsAt (c :: t) with
    | some p => some p
    | none => ytdYearsScan t

/-- Modelled from the spec: the start year of the YTD range. -/
def ytdStartYear (col : String) : Option String :=
  (ytdYearsScan (normCol col)).map (fun p => String.mk p.1)

/-- Modelled from the spec: the fiscal end-year of the YTD range. -/
def ytdEndYear (col : String) : Option String :=
  (ytdYearsScan (normCol col)).map (fun p => String.mk p.2)

/-- C3 counterexample.  With only year `25` selected, the YTD column
`Act-YTD-25-26 (Apr to Jun)` is included (its label contains `-25`),
although its fiscal end-year is `26`, which is not selected: the
code keys on any `-YY` substring, not on the end-year. -/
theorem column_filter_ytd_matches_start_year :
    column_filter [] ["25"] "Act-YTD-25-26 (Apr to Jun)" = true ∧
    ytdEndYear "Act-YTD-25-26 (Apr to Jun)" = some "26" ∧
    ("26" : String) ∉ (["25"] : List String) :=
  ⟨rfl, rfl, by decide⟩

/-- C3 (amended).  For a YTD column whose only `-YY` substrings are
its range start year and end year, the FilterEngine includes the
column iff no year is selected or some selected year equals the
start year or the end year (not the end-year alone). -/
theorem column_filter_ytd_amended (col : String) (selM selY : List String) (a b : String)
    (hytd : containsSub (normCol col) ['y', 't', 'd'] = true)
    (hyears : ∀ y : String, y ∈ selY →
      (containsSub (normCol col) ('-' :: y.data) = true ↔ (y = a ∨ y = b)))
    (_hab : ytdStartYear col = some a ∧ ytdEndYear col = some b) :
    column_filter selM selY col = true ↔ (selY = [] ∨ a ∈ selY ∨ b ∈ selY) := by
  have heq : column_filter selM selY col = yearFacet selY (normCol col) := by
    unfold column_filter
    rw [hytd]
    have hp : (true = true) := rfl
    exact if_pos hp
  rw [heq]
  cases selY with
  | nil => simp [yearFacet]
  | cons y0 ytl =>
    show ((y0 :: ytl).any fun y => containsSub (normCol col) ('-' :: y.data)) = true ↔ _
    simp only [List.any_eq_true]
    constructor
    · rintro ⟨y, hy, hc⟩
      rcases (hyears y hy).1 hc with h | h
      · exact Or.inr (Or.inl (h ▸ hy))
      · exact Or.inr (Or.inr (h ▸ hy))
    · rintro (h | h | h)
      · exact absurd h (by simp)
      · exact ⟨a, h, (hyears a h).2 (Or.inl rfl)⟩
      · exact ⟨b, h, (hyears b h).2 (Or.inr rfl)⟩

/-- C3 witness: the amended rule evaluated on
`Act-YTD-25-26 (Apr to Jun)` with year `26` selected. -/
theorem column_filter_ytd_amended_witness :
    containsSub (normCol "Act-YTD-25-26 (Apr to Jun)") ['y', 't', 'd'] = true ∧
    (column_filter [] ["26"] "Act-YTD-25-26 (Apr to Jun)" = true ↔
      ((["26"] : List String) = [] ∨ "25" ∈ (["26"] : List String) ∨
        "26" ∈ (["26"] : List String))) :=
  ⟨rfl, column_filter_ytd_amended "Act-YTD-25-26 (Apr to Jun)" [] ["26"] "25" "26" rfl
    (by decide) ⟨rfl, rfl⟩⟩

/-- C9 counterexample.  With an empty month selection (and an empty
year selection) the monthly column `Budget-Apr-24` is excluded:
`any(m in col for m in [])` is `False`, so an empty month facet is
not treated as include-all. -/
theorem column_filter_empty_months_excludes :
    column_filter [] [] "Budget-Apr-24" = false ∧
    containsSub (normCol "Budget-Apr-24") ['y', 't', 'd'] = false :=
  ⟨rfl, rfl⟩

/-- C9 (amended).  For a monthly (non-YTD) column whose month-token
substring test singles out exactly its own month `mon` and whose
only `-YY` substring is its own year `yr`: the column is included
iff some selected month equals its month AND (no year is selected or
its year is among the selected years).  An empty year selection is
include-all, but an empty month selection excludes every monthly
column.  On the spec example the visible columns are exactly
`["Budget-Apr-24", "Act-Apr-24"]`. -/
theorem column_filter_monthly_amended :
    (∀ (col : String) (selM selY : List String) (mon yr : String),
      containsSub (normCol col) ['y', 't', 'd'] = false →
      (∀ m : String, m ∈ selM →
        (containsSub (normCol col) (lowerStr m.data) = true ↔ lowerStr m.data = lowerStr mon.data)) →
      (∀ y : String, y ∈ selY →
        (containsSub (normCol col) ('-' :: y.data) = true ↔ y = yr)) →
      (column_filter selM selY col = true ↔
        ((∃ m ∈ selM, lowerStr m.data = lowerStr mon.data) ∧ (selY = [] ∨ yr ∈ selY)))) ∧
    ["Budget-Apr-24", "Act-Apr-24", "Budget-May-24"].filter (column_filter ["Apr"] ["24"]) =
      ["Budget-Apr-24", "Act-Apr-24"] := by
  constructor
  · intro col selM selY mon yr hnotytd hm hy
    have heq : column_filter selM selY col =
        ((selM.any fun m => containsSub (normCol col) (lowerStr m.data)) &&
          yearFacet selY (normCol col)) := by
      unfold column_filter
      rw [hnotytd]
      have hns : ¬(false = true) := by decide
      exact if_neg hns
    cases selY with
    | nil =>
      rw [heq]
      show ((selM.any fun m => containsSub (normCol col) (lowerStr m.data)) && true) = true ↔ _
      simp only [Bool.and_true, List.any_eq_true]
      constructor
      · rintro ⟨m, hmem, hc⟩
        exact ⟨⟨m, hmem, (hm m hmem).1 hc⟩, by simp⟩
      · rintro ⟨⟨m, hmem, hmon⟩, -⟩
        exact ⟨m, hmem, (hm m hmem).2 hmon⟩
    | cons y0 ytl =>
      rw [heq]
      show ((selM.any fun m => containsSub (normCol col) (lowerStr m.data)) &&
          ((y0 :: ytl).any fun y => containsSub (normCol col) ('-' :: y.data))) = true ↔ _
      simp only [Bool.and_eq_true, List.any_eq_true]
      constructor
      · rintro ⟨⟨m, hmem, hc⟩, y, hymem, hyc⟩
        exact ⟨⟨m, hmem, (hm m hmem).1 hc⟩, Or.inr ((hy y hymem).1 hyc ▸ hymem)⟩
      · rintro ⟨⟨m, hmem, hmon⟩, hyr⟩
        rcases hyr with h | h
        · exact absurd h (by simp)
        · exact ⟨⟨m, hmem, (hm m hmem).2 hmon⟩, yr, h, (hy yr h).2 rfl⟩
  · rfl

/-- C9 witness: the amended rule evaluated on `Budget-Apr-24` with
month `Apr` and year `24` selected. -/
theorem column_filter_monthly_amended_witness :
    containsSub (normCol "Budget-Apr-24") ['y', 't', 'd'] = false ∧
    (column_filter ["Apr"] ["24"] "Budget-Apr-24" = true ↔
      ((∃ m ∈ (["Apr"] : List String), lowerStr m.data = lowerStr ("Apr" : String).data) ∧
        ((["24"] : List String) = [] ∨ "24" ∈ (["24"] : List String)))) :=
  ⟨rfl, column_filter_monthly_amended.1 "Budget-Apr-24" ["Apr"] ["24"] "Apr" "24" rfl
    (by decide) (by decide)⟩

/-! ### Budget-vs-Actual alignment
(`plot_budget_vs_actual`, lines 1189–1219) -/

def startsWithLower (col : String) (pre : List Char) : Bool :=
  isPrefixOfChars pre (lowerStr col.data)

/-- The Budget column pool: lower-cased prefix `budget`, no `ytd`,
passing `column_filter`. -/
def budgetCols (selM selY : List String) (cols : List String) : List String :=
  cols.filter (fun c => startsWithLower c ['b', 'u', 'd', 'g', 'e', 't'] &&
    !containsSub (lowerStr c.data) ['y', 't', 'd'] && column_filter selM selY c)

/-- The Act column pool. -/
def actCols (selM selY : List String) (cols : List String) : List String :=
  cols.filter (fun c => startsWithLower c ['a', 'c', 't'] &&
    !containsSub (lowerStr c.data) ['y', 't', 'd'] && column_filter selM selY c)

/-- `re.search(r'(\w{3,})[-–](\d{2})', col)`: the (month, year)
period groups of a column label. -/
def extractPair (col : String) : Option (String × String) :=
  (wordNumScan col.data).map (fun p => (String.mk p.1, String.mk p.2))

def budgetPairs (selM selY : List String) (cols : List String) : List (String × String) :=
  (budgetCols selM selY cols).filterMap extractPair

def actPairs (selM selY : List String) (cols : List String) : List (String × String) :=
  (actCols selM selY cols).filterMap extractPair

/-- `common_months = set(budget pairs) & set(act pairs)`.  Python
iterates the set in unspecified order; the model keeps the budget
list order, and every claim about it is a membership statement,
which the order (and duplicates) cannot affect. -/
def commonPairs (selM selY : List String) (cols : List String) : List (String × String) :=
  (budgetPairs selM selY cols).filter (fun p => decide (p ∈ actPairs selM selY cols))

/-- Word-boundary attempt of `rf'\b{month}[-–]{year}\b'`
(case-insensitive) at the head of the input. -/
def pairWordAt (mon yy l : List Char) : Bool :=
  match matchLitCi mon l with
  | some r =>
    match r with
    | s :: r2 =>
      (s = '-' || s = '–') &&
        (match matchLitCi yy r2 with
         | some r3 =>
           match r3 with
           | [] => true
           | c :: _ => !isWordChar c
         | none => false)
    | [] => false
  | none => false

/-- Scan for `rf'\b{month}[-–]{year}\b'`; the interpolated month is a
`\w{3,}` capture, so the leading `\b` holds exactly at a non-word →
word transition. -/
def pairWordScan (mon yy : List Char) : Bool → List Char → Bool
  | _, [] => false
  | prevW, c :: t =>
    ((!prevW && isWordChar c) && pairWordAt mon yy (c :: t)) ||
      pairWordScan mon yy (isWordChar c) t

def pairWordMatch (col : String) (p : String × String) : Bool :=
  pairWordScan p.1.data p.2.data false col.data

/-- The columns appended for the common periods
(`selected_budget_cols`). -/
def selectedBudgetCols (selM selY : List String) (cols : List String) : List String :=
  (commonPairs selM selY cols).flatMap
    (fun p => (budgetCols selM selY cols).filter (fun c => pairWordMatch c p))

/-- The columns appended for the common periods
(`selected_act_cols`). -/
def selectedActCols (selM selY : List String) (cols : List String) : List String :=
  (commonPairs selM selY cols).flatMap
    (fun p => (actCols selM selY cols).filter (fun c => pairWordMatch c p))

/-- C5.  For well-labelled columns (the word-boundary period test
singles out exactly the column's own extracted period), the
Budget-vs-Actual comparison retains exactly the (month, year) pairs
present in both the Budget and the Act column pools: the common set
is the intersection, a pool column is selected iff its period is
common, and the periods of the selected columns are exactly the
intersection. -/
theorem plot_budget_vs_actual_alignment (selM selY : List String) (cols : List String)
    (H : ∀ c ∈ cols, ∀ p ∈ budgetPairs selM selY cols,
      (pairWordMatch c p = true ↔ extractPair c = some p)) :
    (∀ p, p ∈ commonPairs selM selY cols ↔
      (p ∈ budgetPairs selM selY cols ∧ p ∈ actPairs selM selY cols)) ∧
    (∀ c, c ∈ selectedBudgetCols selM selY cols ↔
      (c ∈ budgetCols selM selY cols ∧
        ∃ p ∈ commonPairs selM selY cols, extractPair c = some p)) ∧
    (∀ c, c ∈ selectedActCols selM selY cols ↔
      (c ∈ actCols selM selY cols ∧
        ∃ p ∈ commonPairs selM selY cols, extractPair c = some p)) ∧
    (∀ p, (∃ c ∈ selectedBudgetCols selM selY cols, extractPair c = some p) ↔
      (p ∈ budgetPairs selM selY cols ∧ p ∈ actPairs selM selY cols)) := by
  have hcommon : ∀ p, p ∈ commonPairs selM selY cols ↔
      (p ∈ budgetPairs selM selY cols ∧ p ∈ actPairs selM selY cols) := by
    intro p
    simp [commonPairs, List.mem_filter]
  have hbudget_sub : ∀ c, c ∈ budgetCols selM selY cols → c ∈ cols := by
    intro c hc
    exact (List.mem_filter.1 hc).1
  have hact_sub : ∀ c, c ∈ actCols selM selY cols → c ∈ cols := by
    intro c hc
    exact (List.mem_filter.1 hc).1
  have hselB : ∀ c, c ∈ selectedBudgetCols selM selY cols ↔
      (c ∈ budgetCols selM selY cols ∧
        ∃ p ∈ commonPairs selM selY cols, extractPair c = some p) := by
    intro c
    simp only [selectedBudgetCols, List.mem_flatMap, List.mem_filter]
    constructor
    · rintro ⟨p, hp, hcb, hmatch⟩
      have hpb := ((hcommon p).1 hp).1
      exact ⟨hcb, p, hp, (H c (hbudget_sub c hcb) p hpb).1 hmatch⟩
    · rintro ⟨hcb, p, hp, hex⟩
      have hpb := ((hcommon p).1 hp).1
      exact ⟨p, hp, hcb, (H c (hbudget_sub c hcb) p hpb).2 hex⟩
  have hselA : ∀ c, c ∈ selectedActCols selM selY cols ↔
      (c ∈ actCols selM selY cols ∧
        ∃ p ∈ commonPairs selM selY cols, extractPair c = some p) := by
    intro c
    simp only [selectedActCols, List.mem_flatMap, List.mem_filter]
    constructor
    · rintro ⟨p, hp, hca, hmatch⟩
      have hpb := ((hcommon p).1 hp).1
      exact ⟨hca, p, hp, (H c (hact_sub c hca) p hpb).1 hmatch⟩
    · rintro ⟨hca, p, hp, hex⟩
      have hpb := ((hcommon p).1 hp).1
      exact ⟨p, hp, hca, (H c (hact_sub c hca) p hpb).2 hex⟩
  refine ⟨hcommon, hselB, hselA, ?_⟩
  intro p
  constructor
  · rintro ⟨c, hc, hex⟩
    obtain ⟨-, p', hp', hex'⟩ := (hselB c).1 hc
    rw [hex] at hex'
    cases hex'
    exact (hcommon p).1 hp'
  · rintro ⟨hpb, hpa⟩
    obtain ⟨c, hcb, hex⟩ := List.mem_filterMap.1 hpb
    exact ⟨c, (hselB c).2 ⟨hcb, p, (hcommon p).2 ⟨hpb, hpa⟩, hex⟩, hex⟩

/-- C5 witness: the spec example.  Budget columns for Apr-24, May-24
and Act columns for May-24, Jun-24: only May-24 is retained. -/
theorem plot_budget_vs_actual_witness :
    commonPairs ["Apr", "May", "Jun"] ["24"]
        ["Budget-Apr-24", "Budget-May-24", "Act-May-24", "Act-Jun-24"] = [("May", "24")] ∧
    (("May", "24") ∈ commonPairs ["Apr", "May", "Jun"] ["24"]
        ["Budget-Apr-24", "Budget-May-24", "Act-May-24", "Act-Jun-24"] ↔
      (("May", "24") ∈ budgetPairs ["Apr", "May", "Jun"] ["24"]
          ["Budget-Apr-24", "Budget-May-24", "Act-May-24", "Act-Jun-24"] ∧
        ("May", "24") ∈ actPairs ["Apr", "May", "Jun"] ["24"]
          ["Budget-Apr-24", "Budget-May-24", "Act-May-24", "Act-Jun-24"])) :=
  ⟨rfl, (plot_budget_vs_actual_alignment ["Apr", "May", "Jun"] ["24"]
    ["Budget-Apr-24", "Budget-May-24", "Act-May-24", "Act-Jun-24"] (by decide)).1 ("May", "24")⟩

/-! ### Table location (first-sheet scan, lines 843–849 and the
fallback at 956–967; `extract_tables`, lines 982–995) -/

/-- A pandas cell: absent or a string. -/
def strCell : Option String → String
  | some s => s
  | none => "nan"

/-- `' '.join(…)`. -/
def joinSpace : List String → List Char
  | [] => []
  | [c] => c.data
  | c :: rest => c.data ++ ' ' :: joinSpace rest

/-- First-sheet row text: non-null cells joined by spaces. -/
def rowTextFirst (row : List (Option String)) : List Char :=
  joinSpace (row.filterMap id)

/-- `extract_tables` row text: every cell stringified (null → `nan`),
lower-cased, joined by spaces. -/
def rowTextAll (row : List (Option String)) : List Char :=
  joinSpace (row.map (fun v => String.mk (lowerStr (strCell v).data)))

def wordBoundaryAfter (r : List Char) : Bool :=
  match r with
  | [] => true
  | c :: _ => !isWordChar c

/-- Anchored `\bsales\s*in\s*mt\b` (case-insensitive; the leading
boundary is checked by the scanner). -/
def anchorMtAt (l : List Char) : Bool :=
  match matchLitCi ['s', 'a', 'l', 'e', 's'] l with
  | some r1 =>
    match matchLitCi ['i', 'n'] (r1.dropWhile isSpaceChar) with
    | some r2 =>
      match matchLitCi ['m', 't'] (r2.dropWhile isSpaceChar) with
      | some r3 => wordBoundaryAfter r3
      | none => false
    | none => false
  | none => false

def anchorValueTail (r2 : List Char) : Bool :=
  (match matchLitCi ['v', 'a', 'l', 'u', 'e'] r2 with
   | some r3 => wordBoundaryAfter r3
   | none => false) ||
  (match matchLitCi ['t', 'o', 'n', 'n', 'a', 'g', 'e'] r2 with
   | some r3 => wordBoundaryAfter r3
   | none => false) ||
  (match matchLitCi ['t', 'o', 'n', 'a', 'g', 'e'] r2 with
   | some r3 => wordBoundaryAfter r3
   | none => false)

/-- Anchored `\bsales\s*in\s*(value|tonnage|tonage)\b`
(case-insensitive). -/
def anchorValueAt (l : List Char) : Bool :=
  match matchLitCi ['s', 'a', 'l', 'e', 's'] l with
  | some r1 =>
    match matchLitCi ['i', 'n'] (r1.dropWhile isSpaceChar) with
    | some r2 => anchorValueTail (r2.dropWhile isSpaceChar)
    | none => false
  | none => false

/-- Scan an anchored boolean matcher across a row text; attempts only
at word-boundary positions (all anchors start with a word
character). -/
def scanAnchor (f : List Char → Bool) : Bool → List Char → Bool
  | _, [] => false
  | prevW, c :: t =>
    ((!prevW && isWordChar c) && f (c :: t)) || scanAnchor f (isWordChar c) t

/-- The first-sheet anchor loop (lines 843–849): `table1_start` for
the first MT anchor, `table2_start` for a later value anchor once
`table1_start` is set. -/
def fsGo : Nat → Option Nat → Option Nat → List (List (Option String)) →
    Option Nat × Option Nat
  | _, t1, t2, [] => (t1, t2)
  | i, t1, t2, row :: rest =>
    if scanAnchor anchorMtAt false (rowTextFirst row) && t1.isNone then
      fsGo (i + 1) (some i) t2 rest
    else if scanAnchor anchorValueAt false (rowTextFirst row) && t1.isSome && t2.isNone then
      fsGo (i + 1) t1 (some i) rest
    else fsGo (i + 1) t1 t2 rest

/-- What the sheet-level dispatch surfaces. -/
inductive LocOutcome where
  | passthrough (g : List (List (Option String)))
  | tables (t1 t2 : Option Nat)
  | errorOnly

/-- First-sheet dispatch (lines 851–967): no anchor at all ⇒ the raw
grid is shown and offered for download (pass-through). -/
def firstSheetOutcome (g : List (List (Option String))) : LocOutcome :=
  match fsGo 0 none none g with
  | (none, none) => .passthrough g
  | (t1, t2) => .tables t1 t2

/-- The `extract_tables` loop (lines 982–990). -/
def etGo (h1 h2 : String) : Nat → Option Nat → Option Nat →
    List (List (Option String)) → Option Nat × Option Nat
  | _, t1, t2, [] => (t1, t2)
  | i, t1, t2, row :: rest =>
    if t1.isNone && containsSub (rowTextAll row) (lowerStr h1.data) then
      etGo h1 h2 (i + 1) (some i) t2 rest
    else if t2.isNone && containsSub (rowTextAll row) (lowerStr h2.data) &&
        decide (i > t1.getD 0) then
      etGo h1 h2 (i + 1) t1 (some i) rest
    else etGo h1 h2 (i + 1) t1 t2 rest

/-- `extract_tables` (lines 982–990). -/
def extract_tables (g : List (List (Option String))) (h1 h2 : String) :
    Option Nat × Option Nat :=
  etGo h1 h2 0 none none g

/-- Non-first-sheet dispatch (lines 992–995): `idx1 is None` ⇒ only
`st.error(…)`, nothing else is surfaced. -/
def otherSheetOutcome (g : List (List (Option String))) (h1 h2 : String) : LocOutcome :=
  match extract_tables g h1 h2 with
  | (none, _) => .errorOnly
  | (some i, t2) => .tables (some i) t2

/-- C7 counterexample.  On a non-first sheet with no anchor match the
code shows an error message only: the raw grid is not surfaced as a
pass-through table (that happens only on the first sheet). -/
theorem locator_error_only_on_other_sheets :
    otherSheetOutcome [[some "hello", none], [some "world"]] "Sales in Tonage"
      "Sales in Value" = LocOutcome.errorOnly ∧
    (∀ g, LocOutcome.errorOnly ≠ LocOutcome.passthrough g) :=
  ⟨rfl, fun _ h => LocOutcome.noConfusion h⟩

/-- Under no-anchor rows, the first-sheet loop finds nothing. -/
theorem fsGo_no_anchor : ∀ (rows : List (List (Option String))) (i : Nat) (t2 : Option Nat),
    (∀ row ∈ rows, scanAnchor anchorMtAt false (rowTextFirst row) = false) →
    fsGo i none t2 rows = (none, t2)
  | [], _, _, _ => rfl
  | row :: rest, i, t2, h => by
    have h0 := h row (List.mem_cons_self row rest)
    have hrest : ∀ r ∈ rest, scanAnchor anchorMtAt false (rowTextFirst r) = false :=
      fun r hr => h r (List.mem_cons_of_mem row hr)
    simp [fsGo, h0, fsGo_no_anchor rest (i + 1) t2 hrest]

/-- Under no-header rows, the `extract_tables` loop never sets
`table1_idx`. -/
theorem etGo_no_header (h1 h2 : String) :
    ∀ (rows : List (List (Option String))) (i : Nat) (t2 : Option Nat),
    (∀ row ∈ rows, containsSub (rowTextAll row) (lowerStr h1.data) = false) →
    (etGo h1 h2 i none t2 rows).1 = none
  | [], _, _, _ => rfl
  | row :: rest, i, t2, h => by
    have h0 := h row (List.mem_cons_self row rest)
    have hrest : ∀ r ∈ rest, containsSub (rowTextAll r) (lowerStr h1.data) = false :=
      fun r hr => h r (List.mem_cons_of_mem row hr)
    have hA := etGo_no_header h1 h2 rest (i + 1) (some i) hrest
    have hB := etGo_no_header h1 h2 rest (i + 1) t2 hrest
    simp [etGo, h0, hA, hB, apply_ite]

/-- C7 (amended).  When no anchor keyword matches any row: on the
FIRST sheet the whole raw grid is surfaced as a pass-through; on
every other sheet the result is an error message only — the raw
grid is not surfaced there. -/
theorem locator_no_anchor_amended (g : List (List (Option String))) (h1 h2 : String)
    (hmt : ∀ row ∈ g, scanAnchor anchorMtAt false (rowTextFirst row) = false)
    (hh1 : ∀ row ∈ g, containsSub (rowTextAll row) (lowerStr h1.data) = false) :
    firstSheetOutcome g = LocOutcome.passthrough g ∧
    otherSheetOutcome g h1 h2 = LocOutcome.errorOnly := by
  constructor
  · rw [firstSheetOutcome, fsGo_no_anchor g 0 none hmt]
  · rw [otherSheetOutcome]
    have hfst := etGo_no_header h1 h2 g 0 none hh1
    rw [extract_tables]
    cases hp : etGo h1 h2 0 none none g with
    | mk p1 p2 =>
      rw [hp] at hfst
      cases p1 with
      | none => rfl
      | some v => cases hfst

/-- C7 witness: a concrete anchor-free grid. -/
theorem locator_no_anchor_witness :
    firstSheetOutcome [[some "hello", none], [some "world"]] =
      LocOutcome.passthrough [[some "hello", none], [some "world"]] ∧
    otherSheetOutcome [[some "hello", none], [some "world"]] "Sales in Tonage"
      "Sales in Value" = LocOutcome.errorOnly :=
  locator_no_anchor_amended [[some "hello", none], [some "world"]]
    "Sales in Tonage" "Sales in Value" (by decide) (by decide)

/-! ### Header resolution (lines 866–879, 1005–1010) -/

def kwAt (tok : List Char) (l : List Char) : Bool :=
  match matchLitCi tok l with
  | some r => wordBoundaryAfter r
  | none => false

/-- `\b(?:budget|ly|act|gr|ach)\b` at one position. -/
def metricKwAt (l : List Char) : Bool :=
  kwAt ['b', 'u', 'd', 'g', 'e', 't'] l || kwAt ['l', 'y'] l || kwAt ['a', 'c', 't'] l ||
    kwAt ['g', 'r'] l || kwAt ['a', 'c', 'h'] l

def headerKeywordRow (row : List (Option String)) : Bool :=
  scanAnchor metricKwAt false (rowTextFirst row)

def headerScanGo (i : Nat) : List (List (Option String)) → Option Nat
  | [] => none
  | row :: rest => if headerKeywordRow row then some i else headerScanGo (i + 1) rest

/-- The header-row scan (lines 866–872): the first of the first
`min(5, len)` rows containing a word-boundary metric keyword. -/
def header_row_idx (region : List (List (Option String))) : Option Nat :=
  headerScanGo 0 (region.take 5)

/-- Header labels of the scan path (lines 874–876): trimmed cell
text, `Unnamed_<index>` for nulls. -/
def headerLabelsGo (i : Nat) : List (Option String) → List String
  | [] => []
  | v :: t =>
    (match v with
     | some s => String.mk (stripStr s.data)
     | none => "Unnamed_" ++ toString i) :: headerLabelsGo (i + 1) t

def headerLabels (row : List (Option String)) : List String :=
  headerLabelsGo 0 row

/-- Header labels of the non-first-sheet path (lines 1005–1010): the
FIRST row, unconditionally, with the empty string for nulls. -/
def headerLabelsNonFirst (row : List (Option String)) : List String :=
  row.map (fun v =>
    match v with
    | some s => String.mk (stripStr s.data)
    | none => "")

/-- C8 counterexample.  On a region whose first row has no metric
keyword and a null cell, the keyword scan designates row 1 with
label `Unnamed_0` for the null — but the non-first-sheet path takes
row 0 unconditionally and renders the null as `""`: the header is
neither found by scanning nor labelled `Unnamed_<index>` there. -/
theorem header_nonfirst_counterexample :
    header_row_idx [[none, some "X"], [some "Budget"]] = some 1 ∧
    headerLabelsNonFirst [none, some "X"] = ["", "X"] ∧
    headerLabels [none, some "X"] = ["Unnamed_0", "X"] ∧
    (["", "X"] : List String) ≠ ["Unnamed_0", "X"] :=
  ⟨rfl, rfl, rfl, by decide⟩

/-- `getD` through `take`. -/
theorem getD_take_of_lt {α : Type} (d : α) :
    ∀ (n : Nat) (l : List α) (j : Nat), j < n → (l.take n).getD j d = l.getD j d
  | 0, _, _, h => absurd h (Nat.not_lt_zero _)
  | _ + 1, [], _, _ => by simp
  | _ + 1, _ :: _, 0, _ => rfl
  | n + 1, _ :: t, j + 1, h =>
    getD_take_of_lt d n t j (Nat.lt_of_succ_lt_succ h)

/-- The scan returns the first keyword row, offset by the start
index. -/
theorem headerScanGo_spec : ∀ (rows : List (List (Option String))) (i j : Nat),
    headerScanGo i rows = some j →
    i ≤ j ∧ j < i + rows.length ∧ headerKeywordRow (rows.getD (j - i) []) = true ∧
    ∀ k, k < j - i → headerKeywordRow (rows.getD k []) = false
  | [], _, _, h => by cases h
  | row :: rest, i, j, h => by
    by_cases hkw : headerKeywordRow row = true
    · have hj : j = i := by
        rw [headerScanGo, if_pos hkw] at h
        exact (Option.some_inj.1 h).symm
      subst hj
      refine ⟨Nat.le_refl _, by simp [Nat.lt_succ_of_le, Nat.le_add_right], ?_, ?_⟩
      · simpa [Nat.sub_self] using hkw
      · intro k hk
        rw [Nat.sub_self] at hk
        exact absurd hk (Nat.not_lt_zero _)
    · have hkwf : headerKeywordRow row = false := by
        cases hval : headerKeywordRow row with
        | false => rfl
        | true => exact absurd hval hkw
      rw [headerScanGo, if_neg hkw] at h
      obtain ⟨h1, h2, h3, h4⟩ := headerScanGo_spec rest (i + 1) j h
      have hij : i ≤ j := Nat.le_of_succ_le h1
      have hsub : j - i = (j - (i + 1)) + 1 := by omega
      refine ⟨hij, by simpa [Nat.add_comm, Nat.add_left_comm, Nat.add_assoc] using h2, ?_, ?_⟩
      · rw [hsub]
        simpa using h3
      · intro k hk
        cases k with
        | zero => simpa using hkwf
        | succ k2 =>
          have : k2 < j - (i + 1) := by omega
          simpa using h4 k2 this

/-- Labels of the scan path, position by position. -/
theorem headerLabelsGo_getD : ∀ (row : List (Option String)) (i0 i : Nat), i < row.length →
    (headerLabelsGo i0 row).getD i "" =
      (match row.getD i none with
       | some s => String.mk (stripStr s.data)
       | none => "Unnamed_" ++ toString (i0 + i))
  | [], _, _, h => absurd h (Nat.not_lt_zero _)
  | v :: t, i0, 0, _ => by
    cases v <;> simp [headerLabelsGo]
  | v :: t, i0, i + 1, h => by
    have := headerLabelsGo_getD t (i0 + 1) i (Nat.lt_of_succ_lt_succ h)
    simpa [headerLabelsGo, Nat.add_comm, Nat.add_left_comm, Nat.add_assoc] using this

/-- C8 (amended).  The first-sheet scan path: a returned header row
index always lies in `[0, min(5, regionLength) − 1]`, designates the
FIRST row of that window containing a word-boundary metric keyword,
and its null cells become `Unnamed_<index>`.  (The non-first-sheet
path deviates: it takes row 0 unconditionally with `""` for nulls —
see the counterexample.) -/
theorem header_resolver_amended :
    (∀ (region : List (List (Option String))) (j : Nat), header_row_idx region = some j →
      j < min 5 region.length ∧ headerKeywordRow (region.getD j []) = true ∧
      ∀ k, k < j → headerKeywordRow (region.getD k []) = false) ∧
    (∀ (row : List (Option String)) (i : Nat), i < row.length →
      (headerLabels row).getD i "" =
        (match row.getD i none with
         | some s => String.mk (stripStr s.data)
         | none => "Unnamed_" ++ toString i)) := by
  constructor
  · intro region j h
    obtain ⟨h1, h2, h3, h4⟩ := headerScanGo_spec (region.take 5) 0 j h
    rw [Nat.zero_add] at h2
    rw [Nat.sub_zero] at h3
    have hlen : (region.take 5).length = min 5 region.length := by
      simp [List.length_take]
    rw [hlen] at h2
    have hj5 : j < 5 := lt_of_lt_of_le h2 (Nat.min_le_left _ _)
    refine ⟨h2, ?_, ?_⟩
    · rw [← getD_take_of_lt [] 5 region j hj5]
      exact h3
    · intro k hk
      rw [← getD_take_of_lt [] 5 region k (Nat.lt_trans hk hj5)]
      rw [Nat.sub_zero] at h4
      exact h4 k hk
  · intro row i h
    have := headerLabelsGo_getD row 0 i h
    simpa using this

/-- C8 witness: the amended properties at a concrete region. -/
theorem header_resolver_amended_witness :
    header_row_idx [[none, some "X"], [some "Budget"]] = some 1 ∧
    (1 < min 5 ([[none, some "X"], [some "Budget"]] :
        List (List (Option String))).length ∧
      headerKeywordRow ([[none, some "X"], [some "Budget"]].getD 1 []) = true ∧
      ∀ k, k < 1 → headerKeywordRow ([[none, some "X"], [some "Budget"]].getD k []) = false) ∧
    (0 < ([none, some " X "] : List (Option String)).length ∧
      (headerLabels [none, some " X "]).getD 0 "" = "Unnamed_0") := by
  refine ⟨rfl, header_resolver_amended.1 [[none, some "X"], [some "Budget"]] 1 rfl, ?_⟩
  refine ⟨by decide, ?_⟩
  have := header_resolver_amended.2 [none, some " X "] 0 (by decide)
  simpa using this

/-! ### Select-all filtering (months/years extraction at lines
1096–1099, row filter at 1117–1121, `visual_cols`/`display_df` at
1130–1132) -/

/-- One month token of
`\b(jan|feb|mar|apr|may|jun|jul|aug|sep|oct|nov|dec)\b`
(case-insensitive), at one position: the matched text is returned as
it appears. -/
def monthLits : List (List Char) :=
  [['j', 'a', 'n'], ['f', 'e', 'b'], ['m', 'a', 'r'], ['a', 'p', 'r'],
   ['m', 'a', 'y'], ['j', 'u', 'n'], ['j', 'u', 'l'], ['a', 'u', 'g'],
   ['s', 'e', 'p'], ['o', 'c', 't'], ['n', 'o', 'v'], ['d', 'e', 'c']]

def tokAt (tok l : List Char) : Option (List Char) :=
  match matchLitCi tok l with
  | some r => if wordBoundaryAfter r then some (l.take tok.length) else none
  | none => none

def firstTok (toks : List (List Char)) (l : List Char) : Option (List Char) :=
  match toks with
  | [] => none
  | t :: ts =>
    match tokAt t l with
    | some m => some m
    | none => firstTok ts l

def monthTokAt (l : List Char) : Option (List Char) :=
  firstTok monthLits l

/-- `re.findall` of the month pattern.  The tokens are all word
characters and require a word boundary on both sides, so a
character-by-character scan coincides with the non-overlapping
`finditer` semantics: every position inside or directly after a
match is preceded by a word character and can start no match. -/
def monthFindAll : Bool → List Char → List (List Char)
  | _, [] => []
  | prevW, c :: t =>
    if !prevW && isWordChar c then
      match monthTokAt (c :: t) with
      | some tok => tok :: monthFindAll true t
      | none => monthFindAll true t
    else monthFindAll (isWordChar c) t

/-- The anchored test of `[-–](\d{2})\b` at one position. -/
def yearTokHere (l : List Char) : Bool :=
  match l with
  | c :: d1 :: d2 :: r =>
    (c = '-' || c = '–') && isDigitChar d1 && isDigitChar d2 && wordBoundaryAfter r
  | _ => false

/-- `re.findall(r'[-–](\d{2})\b', …)`.  A match starts with a dash
and is followed by a boundary; positions inside a match cannot start
another, so the plain scan again matches `finditer`. -/
def yearFindAll : List Char → List (List Char)
  | [] => []
  | c :: t =>
    if yearTokHere (c :: t) then t.take 2 :: yearFindAll t else yearFindAll t

theorem matchLitCi_some_append : ∀ (tok l b r : List Char),
    matchLitCi tok l = some r → matchLitCi tok (l ++ b) = some (r ++ b)
  | [], l, b, r, h => by
    cases h
    rfl
  | a :: s, [], _, _, h => by cases h
  | a :: s, c :: t, b, r, h => by
    rw [matchLitCi] at h
    by_cases he : eqCi a c = true
    · rw [if_pos he] at h
      show matchLitCi (a :: s) (c :: (t ++ b)) = _
      rw [matchLitCi, if_pos he]
      exact matchLitCi_some_append s t b r h
    · rw [if_neg he] at h
      cases h

theorem matchLitCi_none_append_space : ∀ (tok l b : List Char),
    (∀ a ∈ tok, eqCi a ' ' = false) → matchLitCi tok l = none →
    matchLitCi tok (l ++ ' ' :: b) = none
  | [], _, _, _, h => by cases h
  | a :: s, [], b, hsp, _ => by
    show matchLitCi (a :: s) (' ' :: b) = none
    rw [matchLitCi, if_neg]
    rw [hsp a (List.mem_cons_self a s)]
    exact Bool.false_ne_true
  | a :: s, c :: t, b, hsp, h => by
    rw [matchLitCi] at h
    by_cases he : eqCi a c = true
    · rw [if_pos he] at h
      show matchLitCi (a :: s) (c :: (t ++ ' ' :: b)) = none
      rw [matchLitCi, if_pos he]
      exact matchLitCi_none_append_space s t b
        (fun x hx => hsp x (List.mem_cons_of_mem a hx)) h
    · show matchLitCi (a :: s) (c :: (t ++ ' ' :: b)) = none
      rw [matchLitCi, if_neg he]

theorem matchLitCi_some_length : ∀ (tok l r : List Char),
    matchLitCi tok l = some r → l.length = tok.length + r.length
  | [], l, r, h => by
    cases h
    simp
  | a :: s, [], _, h => by cases h
  | a :: s, c :: t, r, h => by
    rw [matchLitCi] at h
    by_cases he : eqCi a c = true
    · rw [if_pos he] at h
      have := matchLitCi_some_length s t r h
      simp [this, Nat.add_comm, Nat.add_left_comm, Nat.add_assoc]
    · rw [if_neg he] at h
      cases h

theorem wordBoundaryAfter_append_space (r b : List Char) :
    wordBoundaryAfter (r ++ ' ' :: b) = wordBoundaryAfter r := by
  cases r with
  | nil => simp [wordBoundaryAfter, isWordChar]
  | cons c t => rfl

theorem take_append_of_le {α : Type} : ∀ (n : Nat) (l b : List α), n ≤ l.length →
    (l ++ b).take n = l.take n
  | 0, _, _, _ => by simp
  | n + 1, [], _, h => absurd h (by simp)
  | n + 1, c :: t, b, h => by
    simp only [List.cons_append, List.take_succ_cons]
    rw [take_append_of_le n t b (Nat.le_of_succ_le_succ h)]

theorem tokAt_append_space (tok l b : List Char)
    (hsp : ∀ a ∈ tok, eqCi a ' ' = false) :
    tokAt tok (l ++ ' ' :: b) = tokAt tok l := by
  unfold tokAt
  cases hm : matchLitCi tok l with
  | none => rw [matchLitCi_none_append_space tok l b hsp hm]
  | some r =>
    rw [matchLitCi_some_append tok l (' ' :: b) r hm]
    dsimp only
    rw [wordBoundaryAfter_append_space]
    have hlen := matchLitCi_some_length tok l r hm
    have hle : tok.length ≤ l.length := by omega
    rw [take_append_of_le tok.length l (' ' :: b) hle]

theorem monthTokAt_append_space (l b : List Char) :
    monthTokAt (l ++ ' ' :: b) = monthTokAt l := by
  unfold monthTokAt
  have h12 : ∀ tok ∈ monthLits, ∀ a ∈ tok, eqCi a ' ' = false := by decide
  have go : ∀ toks, (∀ tok ∈ toks, ∀ a ∈ tok, eqCi a ' ' = false) →
      firstTok toks (l ++ ' ' :: b) = firstTok toks l := by
    intro toks
    induction toks with
    | nil => intro _; rfl
    | cons t ts ih =>
      intro h
      rw [firstTok, firstTok, tokAt_append_space t l b (h t (List.mem_cons_self t ts))]
      cases tokAt t l with
      | some m => rfl
      | none => exact ih (fun x hx => h x (List.mem_cons_of_mem t hx))
  exact go monthLits h12

theorem monthFindAll_append : ∀ (a : List Char) (pw : Bool) (b : List Char),
    monthFindAll pw (a ++ ' ' :: b) = monthFindAll pw a ++ monthFindAll false b
  | [], pw, b => by
    show monthFindAll pw (' ' :: b) = monthFindAll pw [] ++ monthFindAll false b
    rw [monthFindAll, monthFindAll]
    have hw : isWordChar ' ' = false := by decide
    rw [hw]
    simp
  | c :: t, pw, b => by
    show monthFindAll pw (c :: (t ++ ' ' :: b)) = _
    rw [monthFindAll, monthFindAll]
    by_cases hc : (!pw && isWordChar c) = true
    · rw [if_pos hc, if_pos hc]
      rw [show c :: (t ++ ' ' :: b) = (c :: t) ++ ' ' :: b from rfl]
      rw [monthTokAt_append_space (c :: t) b]
      cases monthTokAt (c :: t) with
      | some tok => simp [monthFindAll_append t true b]
      | none => exact monthFindAll_append t true b
    · rw [if_neg hc, if_neg hc]
      exact monthFindAll_append t (isWordChar c) b

theorem yearTokHere_append_space : ∀ (l b : List Char),
    yearTokHere (l ++ ' ' :: b) = yearTokHere l
  | [], b => by
    cases b with
    | nil => rfl
    | cons d1 t =>
      cases t with
      | nil => rfl
      | cons d2 r =>
        show ((' ' = '-' || ' ' = '–') && isDigitChar d1 && isDigitChar d2 &&
          wordBoundaryAfter r) = false
        have h1 : ((' ' = '-' : Bool) || (' ' = '–' : Bool)) = false := by decide
        rw [h1]
        simp
  | [c], b => by
    cases b with
    | nil => rfl
    | cons d t =>
      show ((c = '-' || c = '–') && isDigitChar ' ' && isDigitChar d &&
        wordBoundaryAfter t) = false
      have h1 : isDigitChar ' ' = false := by decide
      rw [h1]
      simp
  | [c, d1], b => by
    show ((c = '-' || c = '–') && isDigitChar d1 && isDigitChar ' ' &&
      wordBoundaryAfter b) = false
    have h1 : isDigitChar ' ' = false := by decide
    rw [h1]
    simp
  | c :: d1 :: d2 :: r, b => by
    show ((c = '-' || c = '–') && isDigitChar d1 && isDigitChar d2 &&
        wordBoundaryAfter (r ++ ' ' :: b)) =
      ((c = '-' || c = '–') && isDigitChar d1 && isDigitChar d2 && wordBoundaryAfter r)
    rw [wordBoundaryAfter_append_space]

theorem yearFindAll_append : ∀ (a b : List Char),
    yearFindAll (a ++ ' ' :: b) = yearFindAll a ++ yearFindAll b
  | [], b => by
    show yearFindAll (' ' :: b) = yearFindAll [] ++ yearFindAll b
    have hg : yearTokHere (' ' :: b) = false := yearTokHere_append_space [] b
    conv_lhs => rw [yearFindAll]
    rw [hg]
    simp [yearFindAll]
  | c :: t, b => by
    show yearFindAll ((c :: t) ++ ' ' :: b) = yearFindAll (c :: t) ++ yearFindAll b
    rw [show (c :: t) ++ ' ' :: b = c :: (t ++ ' ' :: b) from rfl]
    rw [yearFindAll]
    rw [show c :: (t ++ ' ' :: b) = (c :: t) ++ ' ' :: b from rfl]
    rw [yearTokHere_append_space (c :: t) b]
    conv_rhs => rw [yearFindAll]
    by_cases hg : yearTokHere (c :: t) = true
    · rw [if_pos hg, if_pos hg]
      have ht2 : 2 ≤ t.length := by
        cases t with
        | nil =>
          have hf : yearTokHere [c] = false := rfl
          rw [hf] at hg
          exact absurd hg (by decide)
        | cons d1 t2 =>
          cases t2 with
          | nil =>
            have hf : yearTokHere [c, d1] = false := rfl
            rw [hf] at hg
            exact absurd hg (by decide)
          | cons d2 r => simp
      rw [take_append_of_le 2 t (' ' :: b) ht2]
      simp [yearFindAll_append t b]
    · rw [if_neg hg, if_neg hg]
      exact yearFindAll_append t b

/-- `sorted(set(re.findall(month pattern, ' '.join(columns))))`
(lines 1096–1097). -/
def monthsOfColumns (cols : List String) : List String :=
  pySorted (dedupFirst ((monthFindAll false (joinSpace cols)).map String.mk))

/-- `sorted(set(re.findall(r'[-–](\d{2})\b', ' '.join(columns))))`
(lines 1098–1099). -/
def yearsOfColumns (cols : List String) : List String :=
  pySorted (dedupFirst ((yearFindAll (joinSpace cols)).map String.mk))

/-- The select-all row filter (lines 1117–1121):
`filtered_df[first_col].astype(str).isin(selected_branches)`,
skipped entirely when the selection list is empty (falsy). -/
def rowFilterKeep (selBranches : List String) (vals : List (Option String)) :
    List (Option String) :=
  match selBranches with
  | [] => vals
  | _ :: _ => vals.filter (fun v => decide (strCell v ∈ selBranches))

/-- `visual_cols`/`display_df` under select-all (lines 1130–1132):
every column is run through `column_filter` with the extracted
month/year lists; the display keeps the leading column plus the
surviving columns (only the leading column when none survives). -/
def selectAllDisplayCols (cols : List String) : List String :=
  match cols with
  | [] => []
  | first :: rest =>
    if ((first :: rest).filter (column_filter (monthsOfColumns (first :: rest))
        (yearsOfColumns (first :: rest)))).isEmpty then [first]
    else first :: (first :: rest).filter (column_filter (monthsOfColumns (first :: rest))
      (yearsOfColumns (first :: rest)))

theorem mem_dedupFirstAux (a : String) : ∀ (l seen : List String),
    a ∈ dedupFirstAux seen l ↔ (a ∈ l ∧ a ∉ seen)
  | [], seen => by simp [dedupFirstAux]
  | b :: t, seen => by
    by_cases hb : b ∈ seen
    · rw [dedupFirstAux, if_pos hb, mem_dedupFirstAux a t seen]
      constructor
      · rintro ⟨h1, h2⟩
        exact ⟨List.mem_cons_of_mem b h1, h2⟩
      · rintro ⟨h1, h2⟩
        rcases List.mem_cons.1 h1 with rfl | h1
        · exact absurd hb h2
        · exact ⟨h1, h2⟩
    · rw [dedupFirstAux, if_neg hb, List.mem_cons, mem_dedupFirstAux a t (b :: seen)]
      constructor
      · rintro (rfl | ⟨h1, h2⟩)
        · exact ⟨List.mem_cons_self _ _, hb⟩
        · exact ⟨List.mem_cons_of_mem b h1, fun hs => h2 (List.mem_cons_of_mem b hs)⟩
      · rintro ⟨h1, h2⟩
        by_cases hab : a = b
        · exact Or.inl hab
        · rcases List.mem_cons.1 h1 with rfl | h1
          · exact absurd rfl hab
          · refine Or.inr ⟨h1, fun hs => ?_⟩
            rcases List.mem_cons.1 hs with h3 | h3
            · exact hab h3
            · exact h2 h3

theorem mem_dedupFirst (a : String) (l : List String) : a ∈ dedupFirst l ↔ a ∈ l := by
  rw [dedupFirst, mem_dedupFirstAux]
  simp

theorem mem_insertSorted (a x : String) : ∀ (l : List String),
    a ∈ insertSorted x l ↔ (a = x ∨ a ∈ l)
  | [] => by simp [insertSorted]
  | b :: t => by
    rw [insertSorted]
    by_cases hle : strLeB x b = true
    · rw [if_pos hle]
      simp
    · rw [if_neg hle]
      rw [List.mem_cons, mem_insertSorted a x t, List.mem_cons]
      tauto

theorem mem_pySorted (a : String) : ∀ (l : List String), a ∈ pySorted l ↔ a ∈ l
  | [] => Iff.rfl
  | b :: t => by
    rw [pySorted, mem_insertSorted, mem_pySorted a t, List.mem_cons]

/-! Orientation variants of the digit-kit disequalities needed when a
symbolic digit is compared against a month initial. -/

@[simp] theorem digitChar_ne_lowa : ∀ t : Fin 10, (digitChar t = 'a') = False := by decide

@[simp] theorem digitChar_ne_lowd : ∀ t : Fin 10, (digitChar t = 'd') = False := by decide

@[simp] theorem digitChar_ne_lowf : ∀ t : Fin 10, (digitChar t = 'f') = False := by decide

@[simp] theorem digitChar_ne_lowj : ∀ t : Fin 10, (digitChar t = 'j') = False := by decide

@[simp] theorem digitChar_ne_lowm : ∀ t : Fin 10, (digitChar t = 'm') = False := by decide

@[simp] theorem digitChar_ne_lown : ∀ t : Fin 10, (digitChar t = 'n') = False := by decide

@[simp] theorem digitChar_ne_lowo : ∀ t : Fin 10, (digitChar t = 'o') = False := by decide

@[simp] theorem digitChar_ne_lows : ∀ t : Fin 10, (digitChar t = 's') = False := by decide

set_option maxHeartbeats 1000000 in
/-- The month pattern finds exactly the label's own month token in a
canonical monthly label. -/
theorem monthFindAll_mkMonthlyLabel (met : Fin 3) (m : Fin 12) (t o : Fin 10) :
    monthFindAll false (mkMonthlyLabel met m t o).data = [(monthName m).data] := by
  fin_cases met <;> fin_cases m <;>
    simp [mkMonthlyLabel, metStr, metNames, monthName, fiscalMonthNames, yearStr,
      monthFindAll, monthTokAt, firstTok, tokAt, monthLits, matchLitCi, eqCi,
      wordBoundaryAfter, isWordChar, lowerChar]

set_option maxHeartbeats 1000000 in
/-- The year pattern finds exactly the label's own two-digit year in a
canonical monthly label. -/
theorem yearFindAll_mkMonthlyLabel (met : Fin 3) (m : Fin 12) (t o : Fin 10) :
    yearFindAll (mkMonthlyLabel met m t o).data = [[digitChar t, digitChar o]] := by
  fin_cases met <;> fin_cases m <;>
    simp [mkMonthlyLabel, metStr, metNames, monthName, fiscalMonthNames, yearStr,
      yearFindAll, yearTokHere, wordBoundaryAfter, isWordChar, isDigitChar]

set_option maxHeartbeats 1000000 in
/-- A canonical monthly label contains its own lower-cased month name
as a substring after normalization. -/
theorem normCol_mkMonthlyLabel_month (met : Fin 3) (m : Fin 12) (t o : Fin 10) :
    containsSub (normCol (mkMonthlyLabel met m t o)) (lowerStr (monthName m).data) = true := by
  fin_cases met <;> fin_cases m <;>
    simp [mkMonthlyLabel, metStr, metNames, monthName, fiscalMonthNames, yearStr, normCol,
      lowerStr, lowerChar, dropCommas, dashify, containsSub, isPrefixOfChars]

set_option maxHeartbeats 1000000 in
/-- A canonical monthly label is not a YTD label. -/
theorem normCol_mkMonthlyLabel_ytd (met : Fin 3) (m : Fin 12) (t o : Fin 10) :
    containsSub (normCol (mkMonthlyLabel met m t o)) ['y', 't', 'd'] = false := by
  fin_cases met <;> fin_cases m <;>
    simp [mkMonthlyLabel, metStr, metNames, monthName, fiscalMonthNames, yearStr, normCol,
      lowerStr, lowerChar, dropCommas, dashify, containsSub, isPrefixOfChars]

set_option maxHeartbeats 1000000 in
/-- A canonical monthly label contains its own `-YY` year suffix as a
substring after normalization. -/
theorem normCol_mkMonthlyLabel_year (met : Fin 3) (m : Fin 12) (t o : Fin 10) :
    containsSub (normCol (mkMonthlyLabel met m t o))
      ('-' :: [digitChar t, digitChar o]) = true := by
  fin_cases met <;> fin_cases m <;>
    simp [mkMonthlyLabel, metStr, metNames, monthName, fiscalMonthNames, yearStr, normCol,
      lowerStr, lowerChar, dropCommas, dashify, containsSub, isPrefixOfChars]

/-- Month tokens found in one column are found in the space-join of
any column list containing it. -/
theorem monthFindAll_joinSpace_mem : ∀ (cols : List String) (c : String), c ∈ cols →
    ∀ tok ∈ monthFindAll false c.data, tok ∈ monthFindAll false (joinSpace cols)
  | [], c, hc, _, _ => absurd hc (List.not_mem_nil c)
  | [c0], c, hc, tok, htok => by
    rcases List.mem_singleton.1 hc with rfl
    simpa [joinSpace] using htok
  | c0 :: c1 :: rest, c, hc, tok, htok => by
    have hj : joinSpace (c0 :: c1 :: rest) = c0.data ++ ' ' :: joinSpace (c1 :: rest) := rfl
    rw [hj, monthFindAll_append]
    rcases List.mem_cons.1 hc with rfl | hc2
    · exact List.mem_append_left _ htok
    · exact List.mem_append_right _ (monthFindAll_joinSpace_mem (c1 :: rest) c hc2 tok htok)

/-- Year tokens found in one column are found in the space-join of
any column list containing it. -/
theorem yearFindAll_joinSpace_mem : ∀ (cols : List String) (c : String), c ∈ cols →
    ∀ tok ∈ yearFindAll c.data, tok ∈ yearFindAll (joinSpace cols)
  | [], c, hc, _, _ => absurd hc (List.not_mem_nil c)
  | [c0], c, hc, tok, htok => by
    rcases List.mem_singleton.1 hc with rfl
    simpa [joinSpace] using htok
  | c0 :: c1 :: rest, c, hc, tok, htok => by
    have hj : joinSpace (c0 :: c1 :: rest) = c0.data ++ ' ' :: joinSpace (c1 :: rest) := rfl
    rw [hj, yearFindAll_append]
    rcases List.mem_cons.1 hc with rfl | hc2
    · exact List.mem_append_left _ htok
    · exact List.mem_append_right _ (yearFindAll_joinSpace_mem (c1 :: rest) c hc2 tok htok)

/-- The month of every canonical monthly column is in the extracted
month list. -/
theorem mem_monthsOfColumns (cols : List String) (c : String) (hc : c ∈ cols)
    (met : Fin 3) (m : Fin 12) (t o : Fin 10) (hcol : c = mkMonthlyLabel met m t o) :
    monthName m ∈ monthsOfColumns cols := by
  rw [monthsOfColumns, mem_pySorted, mem_dedupFirst]
  apply List.mem_map.2
  refine ⟨(monthName m).data, ?_, rfl⟩
  apply monthFindAll_joinSpace_mem cols c hc (monthName m).data
  rw [hcol, monthFindAll_mkMonthlyLabel]
  exact List.mem_singleton_self _

/-- The year of every canonical monthly column is in the extracted
year list. -/
theorem mem_yearsOfColumns (cols : List String) (c : String) (hc : c ∈ cols)
    (met : Fin 3) (m : Fin 12) (t o : Fin 10) (hcol : c = mkMonthlyLabel met m t o) :
    yearStr t o ∈ yearsOfColumns cols := by
  rw [yearsOfColumns, mem_pySorted, mem_dedupFirst]
  apply List.mem_map.2
  refine ⟨[digitChar t, digitChar o], ?_, rfl⟩
  apply yearFindAll_joinSpace_mem cols c hc [digitChar t, digitChar o]
  rw [hcol, yearFindAll_mkMonthlyLabel]
  exact List.mem_singleton_self _

/-- The year facet is true as soon as one selected year has its `-YY`
form in the label. -/
theorem yearFacet_true_of_mem (selY : List String) (cs : List Char) (y : String)
    (hy : y ∈ selY) (hc : containsSub cs ('-' :: y.data) = true) :
    yearFacet selY cs = true := by
  cases selY with
  | nil => rfl
  | cons a tl =>
    show ((a :: tl).any fun z => containsSub cs ('-' :: z.data)) = true
    exact List.any_eq_true.2 ⟨y, hy, hc⟩

/-- Under select-all (all extracted months and years selected), every
canonical monthly column passes `column_filter`. -/
theorem column_filter_selectAll_true (cols : List String) (c : String) (hc : c ∈ cols)
    (met : Fin 3) (m : Fin 12) (t o : Fin 10) (hcol : c = mkMonthlyLabel met m t o) :
    column_filter (monthsOfColumns cols) (yearsOfColumns cols) c = true := by
  subst hcol
  unfold column_filter
  rw [normCol_mkMonthlyLabel_ytd met m t o]
  have hns : ¬(false = true) := by decide
  rw [if_neg hns]
  rw [Bool.and_eq_true]
  constructor
  · apply List.any_eq_true.2
    exact ⟨monthName m, mem_monthsOfColumns cols _ hc met m t o rfl,
      normCol_mkMonthlyLabel_month met m t o⟩
  · exact yearFacet_true_of_mem _ _ (yearStr t o) (mem_yearsOfColumns cols _ hc met m t o rfl)
      (normCol_mkMonthlyLabel_year met m t o)

/-- C6 counterexample.  Select-all is not a no-op.  Rows: with
leading value `" North "` the branch list is the trimmed `["North"]`,
and `isin` compares the untrimmed cell, so select-all drops the row.
Columns: with columns `["Region", "Total"]` no month token is
extracted, the select-all month list is empty, every column fails
`column_filter`, and the display keeps only the leading column,
dropping `"Total"`. -/
theorem select_all_not_no_filter :
    rowFilterKeep (extract_unique_values [some " North "] none) [some " North "] = [] ∧
    ([some " North "] : List (Option String)) ≠ [] ∧
    selectAllDisplayCols ["Region", "Total"] = ["Region"] ∧
    "Total" ∈ (["Region", "Total"] : List String) ∧
    "Total" ∉ (["Region"] : List String) :=
  ⟨rfl, by decide, rfl, by decide, by decide⟩

/-- C6 (amended).  Select-all equals no filtering on tables in
canonical form: if every leading-column value is a non-null,
already-trimmed string, the select-all row filter keeps every row;
and if every non-leading column is a canonical monthly metric label,
the select-all display columns are, as a set, exactly the original
columns.  Without those provisos it fails: untrimmed or null leading
values are dropped by the `isin` test against the trimmed branch
list, and columns carrying no month token (e.g. a Total column) are
dropped because the month facet has no include-all fallback. -/
theorem select_all_full_table :
    (∀ (vals : List (Option String)),
      (∀ v ∈ vals, ∃ s, v = some s ∧ stripStr s.data = s.data) →
      rowFilterKeep (extract_unique_values vals none) vals = vals) ∧
    (∀ (first : String) (rest : List String),
      (∀ c ∈ rest, ∃ met : Fin 3, ∃ m : Fin 12, ∃ t o : Fin 10, c = mkMonthlyLabel met m t o) →
      ∀ c, c ∈ selectAllDisplayCols (first :: rest) ↔ c ∈ first :: rest) := by
  constructor
  · intro vals hvals
    rcases he : extract_unique_values vals none with _ | ⟨b, bs⟩
    · rfl
    · show vals.filter (fun v => decide (strCell v ∈ b :: bs)) = vals
      apply List.filter_eq_self.2
      intro v hv
      rcases hvals v hv with ⟨s, rfl, hstrip⟩
      rw [decide_eq_true_eq]
      rw [show (b :: bs) = extract_unique_values vals none from he.symm]
      show s ∈ pySorted (dedupFirst ((vals.filterMap id).map
        (fun x => String.mk (stripStr x.data))))
      rw [mem_pySorted, mem_dedupFirst]
      apply List.mem_map.2
      refine ⟨s, List.mem_filterMap.2 ⟨some s, hv, rfl⟩, ?_⟩
      rw [hstrip]
  · intro first rest hrest c
    have hpass : ∀ x ∈ rest, column_filter (monthsOfColumns (first :: rest))
        (yearsOfColumns (first :: rest)) x = true := by
      intro x hx
      rcases hrest x hx with ⟨met, m, t, o, hcol⟩
      exact column_filter_selectAll_true (first :: rest) x (List.mem_cons_of_mem first hx)
        met m t o hcol
    rw [selectAllDisplayCols]
    by_cases hemp : ((first :: rest).filter (column_filter (monthsOfColumns (first :: rest))
        (yearsOfColumns (first :: rest)))).isEmpty = true
    · rw [if_pos hemp]
      constructor
      · intro hcm
        rcases List.mem_singleton.1 hcm with rfl
        exact List.mem_cons_self _ _
      · intro hcm
        rcases List.mem_cons.1 hcm with rfl | hcr
        · exact List.mem_singleton_self _
        · exfalso
          have hnil : (first :: rest).filter (column_filter (monthsOfColumns (first :: rest))
              (yearsOfColumns (first :: rest))) = [] := by simpa using hemp
          have hcf : c ∈ (first :: rest).filter (column_filter (monthsOfColumns (first :: rest))
              (yearsOfColumns (first :: rest))) :=
            List.mem_filter.2 ⟨List.mem_cons_of_mem first hcr, hpass c hcr⟩
          rw [hnil] at hcf
          exact absurd hcf (List.not_mem_nil c)
    · rw [if_neg hemp]
      constructor
      · intro hcm
        rcases List.mem_cons.1 hcm with rfl | hcf
        · exact List.mem_cons_self _ _
        · exact (List.mem_filter.1 hcf).1
      · intro hcm
        rcases List.mem_cons.1 hcm with rfl | hcr
        · exact List.mem_cons_self _ _
        · exact List.mem_cons_of_mem first
            (List.mem_filter.2 ⟨List.mem_cons_of_mem first hcr, hpass c hcr⟩)

/-- C6 witness: the amended statement at a concrete canonical table,
leading column `REGIONS` with trimmed values `North`/`South` and
monthly columns `Budget-Apr-24` and `Act-May-24`. -/
theorem select_all_full_table_witness :
    ((∀ v ∈ ([some "North", some "South"] : List (Option String)),
        ∃ s, v = some s ∧ stripStr s.data = s.data) ∧
      rowFilterKeep (extract_unique_values [some "North", some "South"] none)
        [some "North", some "South"] = [some "North", some "South"]) ∧
    ((∀ c ∈ (["Budget-Apr-24", "Act-May-24"] : List String),
        ∃ met : Fin 3, ∃ m : Fin 12, ∃ t o : Fin 10, c = mkMonthlyLabel met m t o) ∧
      ("Act-May-24" ∈ selectAllDisplayCols ["REGIONS", "Budget-Apr-24", "Act-May-24"] ↔
        "Act-May-24" ∈ (["REGIONS", "Budget-Apr-24", "Act-May-24"] : List String))) := by
  have h1 : ∀ v ∈ ([some "North", some "South"] : List (Option String)),
      ∃ s, v = some s ∧ stripStr s.data = s.data := by
    intro v hv
    rcases List.mem_cons.1 hv with rfl | hv2
    · exact ⟨"North", rfl, rfl⟩
    · rcases List.mem_cons.1 hv2 with rfl | hv3
      · exact ⟨"South", rfl, rfl⟩
      · exact absurd hv3 (List.not_mem_nil v)
  have h2 : ∀ c ∈ (["Budget-Apr-24", "Act-May-24"] : List String),
      ∃ met : Fin 3, ∃ m : Fin 12, ∃ t o : Fin 10, c = mkMonthlyLabel met m t o := by
    intro c hc
    rcases List.mem_cons.1 hc with rfl | hc2
    · exact ⟨0, 0, 2, 4, by decide⟩
    · rcases List.mem_cons.1 hc2 with rfl | hc3
      · exact ⟨2, 1, 2, 4, by decide⟩
      · exact absurd hc3 (List.not_mem_nil c)
  exact ⟨⟨h1, select_all_full_table.1 _ h1⟩,
    ⟨h2, select_all_full_table.2 "REGIONS" ["Budget-Apr-24", "Act-May-24"] h2 "Act-May-24"⟩⟩

end Dashboard
